import Mathlib

/-!
Shallow embedding of the `FetchViaJwt` client (TRMJsFetchViaJwt, `src/index.js`,
final variant of the file) together with the external seams it uses.

The JavaScript class performs authenticated HTTP calls: it attaches a JWT
bearer header, classifies 401 responses, refreshes the tokens through a
pluggable `fetchTokens` strategy and replays the original request, bounded by
`MAX_CALL_COUNT`.  The promise chains are embedded as explicit state passing:
a run threads a `St` value recording the token stores and an event trace
(before-handler runs, network dispatches, refresh calls, after-handler runs),
and the outside world is an `Env` giving the response of the n-th network
dispatch and the result of the n-th refresh call.  Rejected promises are
`Except.error` values.
-/

namespace TRMJsFetchViaJwt

/-- Errors thrown by the class (each JS error subclass is one constructor;
the string argument is the tag message passed at the throw site).
`typeError` stands for the JavaScript TypeError raised by a property access
on `undefined`, and `jsonParse` for a rejected `Response.json()` promise. -/
inductive JsErr where
  | error401 (tag : String)
  | error404 (tag : String)
  | errorMaxCallCount (tag : String)
  | errorNoAccessToken (tag : String)
  | errorHTTPStatus (message : String) (status : Nat)
  | typeError
  | jsonParse (message : String)
  deriving DecidableEq, Repr

/-- JSON-like JavaScript values (the bodies the client parses and sends). -/
inductive Jx where
  | jnull
  | jbool (b : Bool)
  | jnum (n : Int)
  | jstr (s : String)
  | jobj (fields : List (String × Jx))

/-- JavaScript truthiness of a value. -/
def Jx.truthy : Jx → Bool
  | .jnull => false
  | .jbool b => b
  | .jnum n => n != 0
  | .jstr s => s != ""
  | .jobj _ => true

/-- JavaScript string coercion, as used by string concatenation. -/
def Jx.toJsString : Jx → String
  | .jnull => "null"
  | .jbool b => if b then "true" else "false"
  | .jnum n => toString n
  | .jstr s => s
  | .jobj _ => "[object Object]"

/-- JavaScript property read `v.k`: reading from `null` throws a TypeError,
reading a missing field of an object (or any field of another primitive)
yields `undefined`, embedded as `none`. -/
def Jx.prop : Jx → String → Except JsErr (Option Jx)
  | .jnull, _ => .error .typeError
  | .jobj fields, k => .ok (fields.lookup k)
  | _, _ => .ok none

/-- Truthiness of a possibly-undefined value (`undefined` is falsy). -/
def jsTruthyOpt : Option Jx → Bool
  | none => false
  | some v => v.truthy

/-- Truthiness of a possibly-undefined string (`undefined` and `""` are falsy). -/
def jsTruthyStr : Option String → Bool
  | none => false
  | some s => s != ""

/-- The expression `Result.data.errors` from the strict-mode block of
`fetchCounted`: the outer access throws a TypeError when `Result.data`
is `undefined` (or when `Result` itself is `null`). -/
def dataDotErrors (Result : Jx) : Except JsErr (Option Jx) :=
  match Result.prop "data" with
  | .error e => .error e
  | .ok none => .error .typeError
  | .ok (some d) => d.prop "errors"

/-- A JavaScript plain object used as a string-to-string map (HTTP headers),
embedded extensionally by its lookup function; `none` is an absent key. -/
def HMap : Type := String → Option String

/-- The empty object literal. -/
def hempty : HMap := fun _ => none

/-- A single key write, `obj[k] = v`. -/
def hset (m : HMap) (k v : String) : HMap := fun x => if x = k then some v else m x

/-- One step of `Object.assign(base, extra)`: keys present in `extra`
overwrite those of `base`. -/
def hassign (base extra : HMap) : HMap := fun x =>
  match extra x with
  | some v => some v
  | none => base x

/-- The object literal from `FetchViaJwt.fetch`, one entry Content-Type
mapped to application/json. -/
def contentTypeDefault : HMap := hset hempty "Content-Type" "application/json"

/-- The `fetch` configuration object: the transport policy fields the class
copies from the caller-supplied `Config` (all optional, `undefined` = `none`). -/
structure FetchConfig where
  method : Option String := none
  mode : Option String := none
  cache : Option String := none
  credentials : Option String := none
  redirect : Option String := none
  referrerPolicy : Option String := none

/-- A transport-level response: its integer status and the outcome of its
`json()` body decoding (a parsed value, or a parse-failure message). -/
structure Response where
  status : Nat
  json : Except String Jx

/-- The request record handed to the global `fetch` primitive. -/
structure RequestRec where
  url : String
  method : Option String
  headers : HMap
  body : Option Jx

/-- Observable events of one run: before-handler invocations (identified by
their registration index), network dispatches, refresh (`fetchTokens`)
invocations, and after-handler invocations with their argument. -/
inductive Ev where
  | beforeHandler (id : Nat)
  | dispatch (req : RequestRec)
  | refreshCall
  | afterHandler (id : Nat) (result : Jx)

def isBeforeEv : Ev → Bool
  | .beforeHandler _ => true
  | _ => false

def isDispatchEv : Ev → Bool
  | .dispatch _ => true
  | _ => false

def isRefreshEv : Ev → Bool
  | .refreshCall => true
  | _ => false

def isAfterEv : Ev → Bool
  | .afterHandler _ _ => true
  | _ => false

/-- Number of network dispatches recorded in a trace. -/
def countDispatch (evs : List Ev) : Nat := evs.countP (fun e => isDispatchEv e)

/-- Number of `fetchTokens` invocations recorded in a trace. -/
def countRefresh (evs : List Ev) : Nat := evs.countP (fun e => isRefreshEv e)

/-- Number of after-handler invocations recorded in a trace. -/
def countAfter (evs : List Ev) : Nat := evs.countP (fun e => isAfterEv e)

/-- Module-level default, exported constant `MAX_CALL_COUNT = 3`. -/
def MAX_CALL_COUNT : Nat := 3

/-- Module-level constant `HTTP_UNAUTHORIZED_CODE = 401`. -/
def HTTP_UNAUTHORIZED_CODE : Nat := 401

/-- Module-level constant `HTTP_PAGE_NOT_FOUND = 404`. -/
def HTTP_PAGE_NOT_FOUND : Nat := 404

/-- The per-instance configuration set up by the constructor (final variant):
fields default to the module constants exactly as the constructor does.
Handler lists hold opaque handler identifiers (their registration indices). -/
structure Client where
  JWT_REFRESH_URL : String := ""
  MAX_CALL_COUNT : Nat := TRMJsFetchViaJwt.MAX_CALL_COUNT
  JWT_ACCESS_TOKEN_NAME : String := "BEARER"
  JWT_REFRESH_TOKEN_NAME : String := "REFRESH"
  CommonHeaders : HMap := hempty
  BeforeHandlers : List Nat := []
  AfterHandlers : List Nat := []
  AuthorizationFlag : Bool := true
  CheckBearerInHeaderFlag : Bool := false
  ErrorWhenNot2xxFlag : Bool := true

/-- Mutable run state: the two token stores behind the default accessors
(cookie for access, persistent key-value store for refresh), plus the
event trace of the run. -/
structure St where
  accessToken : Option String
  refreshToken : Option String
  events : List Ev

/-- The outside world of one run: the n-th network dispatch (0-based)
receives `responses n`; the n-th invocation of the pluggable `fetchTokens`
strategy yields `tokens n`, a token object consulted by key name, or a
rejection. -/
structure Env where
  responses : Nat → Response
  tokens : Nat → Except JsErr (String → Option String)

/-- `getAccessTokenDefault`: reads the access token from its store. -/
def getAccessTokenDefault (st : St) : Option String := st.accessToken

/-- `setAccessTokenDefault` (final variant): writes the access token only
when the given value is truthy, otherwise leaves the store untouched. -/
def setAccessTokenDefault (st : St) (AccessToken : Option String) : St :=
  if jsTruthyStr AccessToken then { st with accessToken := AccessToken } else st

/-- `getRefreshTokenDefault`: reads the refresh token from its store. -/
def getRefreshTokenDefault (st : St) : Option String := st.refreshToken

/-- `setRefreshTokenDefault` (final variant): writes the refresh token only
when the given value is truthy, otherwise leaves the store untouched. -/
def setRefreshTokenDefault (st : St) (RefreshToken : Option String) : St :=
  if jsTruthyStr RefreshToken then { st with refreshToken := RefreshToken } else st

/-- `startBeforeHandlers`: runs every registered before-handler, in
registration order, recording each invocation. -/
def startBeforeHandlers (c : Client) (st : St) : St :=
  { st with events := st.events ++ c.BeforeHandlers.map Ev.beforeHandler }

/-- `startAfterHandlers`: runs every registered after-handler with the
final parsed result, in registration order, recording each invocation. -/
def startAfterHandlers (c : Client) (Result : Jx) (st : St) : St :=
  { st with events := st.events ++ c.AfterHandlers.map (fun i => Ev.afterHandler i Result) }

/-- Modelled from the spec: `checkFetchResponseStatus` lives in the external
Helpers module, absent from this repository; per the spec it reports whether
the response carries the given status code. -/
def checkFetchResponseStatus (Resp : Response) (Code : Nat) : Bool :=
  Resp.status == Code

/-- Modelled from the spec: `getFetchResponseStatus` (external Helpers
module) returns the response's integer status code. -/
def getFetchResponseStatus (Resp : Response) : Nat := Resp.status

/-- Modelled from the spec: `generateGetUrl` (external Helpers module)
serializes the data object's key-value pairs as query parameters appended
to the url, in insertion order. -/
def generateGetUrl (Url : String) (Data : Option Jx) : String :=
  match Data with
  | some (.jobj fields) =>
      Url ++ "?" ++ String.intercalate "&" (fields.map (fun f => f.1 ++ "=" ++ f.2.toJsString))
  | _ => Url

/-- `onResponseCheck401`: throws `Error401` on a 401 response, passes any
other response through unchanged. -/
def onResponseCheck401 (Resp : Response) : Except JsErr Response :=
  if checkFetchResponseStatus Resp HTTP_UNAUTHORIZED_CODE then
    .error (.error401 "[onResponseCheck401]")
  else .ok Resp

/-- `onResponseCheck404`: throws `Error404` on a 404 response, passes any
other response through unchanged. -/
def onResponseCheck404 (Resp : Response) : Except JsErr Response :=
  if checkFetchResponseStatus Resp HTTP_PAGE_NOT_FOUND then
    .error (.error404 "[onResponseCheck401]")
  else .ok Resp

/-- The body of the second `.then` of `fetchCounted` (strict mode): when
`ErrorWhenNot2xxFlag` is set and the status lies outside 200..299, the
error body is parsed and `ErrorHTTPStatus` is thrown with a message built
from `Result.data.errors`; the property chain itself can throw a TypeError
and `Resp.json()` can reject, both of which propagate instead. -/
def strictStatusCheck (c : Client) (Resp : Response) : Except JsErr Response :=
  if !c.ErrorWhenNot2xxFlag then .ok Resp
  else
    if getFetchResponseStatus Resp < 200 || getFetchResponseStatus Resp ≥ 300 then
      match Resp.json with
      | .error msg => .error (.jsonParse msg)
      | .ok Result =>
        match dataDotErrors Result with
        | .error e => .error e
        | .ok errs =>
          .error (.errorHTTPStatus
            ("[fetchCounted]" ++
              (if jsTruthyOpt errs then " " ++ (errs.getD Jx.jnull).toJsString
               else " " ++ Result.toJsString))
            (getFetchResponseStatus Resp))
    else .ok Resp

/-- The pluggable `fetchTokens` strategy: consults the environment (indexed
by the number of refresh calls made so far) and records the refresh call. -/
def fetchTokens (env : Env) (st : St) : Except JsErr (String → Option String) × St :=
  (env.tokens (countRefresh st.events), { st with events := st.events ++ [Ev.refreshCall] })

/-- `FetchViaJwt.fetch`: merges `CommonHeaders`, the Content-Type default
and the caller headers (later entries overwrite earlier ones), copies the
transport policy fields from `Config`, serializes a truthy `Data` as the
body, and issues the network call; the response is supplied by the
environment and the dispatch is recorded in the trace. -/
def fetch (c : Client) (env : Env) (Url : String) (Data : Option Jx)
    (Headers : HMap) (Config : FetchConfig) (st : St) : Response × St :=
  (env.responses (countDispatch st.events),
   { st with events := st.events ++
      [Ev.dispatch
        { url := Url
          method := Config.method
          headers := hassign (hassign (hassign hempty c.CommonHeaders) contentTypeDefault) Headers
          body := if jsTruthyOpt Data then Data else none }] })

/-- `fetchViaJwt` (final variant): when `AuthorizationFlag` is set, reads
the access token and rejects with `ErrorNoAccessToken` when it is absent
or empty (no network call); otherwise writes the Authorization bearer
header into the caller-supplied `Headers` object, writes the method into
the caller-supplied `Config` object, and dispatches.  The returned triple
carries the (possibly mutated) `Headers` and `Config` objects, which the
JS closures keep sharing across retries. -/
def fetchViaJwt (c : Client) (env : Env) (Url : String) (Method : String)
    (Data : Option Jx) (Headers : HMap) (Config : FetchConfig) (st : St) :
    Except JsErr Response × HMap × FetchConfig × St :=
  if c.AuthorizationFlag then
    if !jsTruthyStr (getAccessTokenDefault st) then
      (.error (.errorNoAccessToken "[fetchViaJwt]"), Headers, Config, st)
    else
      match fetch c env Url Data
          (hset Headers "Authorization" ("Bearer " ++ (getAccessTokenDefault st).getD ""))
          { Config with method := some Method } st with
      | (Resp, st1) =>
        (.ok Resp, hset Headers "Authorization" ("Bearer " ++ (getAccessTokenDefault st).getD ""),
         { Config with method := some Method }, st1)
  else
    match fetch c env Url Data Headers { Config with method := some Method } st with
    | (Resp, st1) => (.ok Resp, Headers, { Config with method := some Method }, st1)

/-- `getViaJwt`: appends the data as query parameters and dispatches a GET
request with no body through `fetchViaJwt`. -/
def getViaJwt (c : Client) (env : Env) (Url : String) (Data : Option Jx)
    (Headers : HMap) (Config : FetchConfig) (st : St) :
    Except JsErr Response × HMap × FetchConfig × St :=
  fetchViaJwt c env (generateGetUrl Url Data) "GET" none Headers Config st

/-- `fetchCounted` (final variant): throws `ErrorMaxCallCount` once `Count`
reaches `MAX_CALL_COUNT`; otherwise dispatches via `fetchViaJwt`, runs the
401 check and the strict status-range check, and on `Error401` runs the
catch handler returned by `refreshTokensAndRepeatRequest` (inlined here):
any non-`Error401` failure is rethrown, otherwise `fetchTokens` runs, the
new tokens are stored through the (guarded) default setters, and the call
is replayed with `Count + 1` using the same shared `Headers`/`Config`
objects. -/
def fetchCounted (c : Client) (env : Env) (Url : String) (Method : String)
    (Data : Option Jx) (Headers : HMap) (Config : FetchConfig) (Count : Nat) (st : St) :
    Except JsErr Response × St :=
  if h : Count ≥ c.MAX_CALL_COUNT then
    (.error (.errorMaxCallCount "[fetchCounted]"), st)
  else
    match fetchViaJwt c env Url Method Data Headers Config st with
    | (r, Headers1, Config1, st1) =>
      match (r.bind onResponseCheck401).bind (strictStatusCheck c) with
      | .ok Resp => (.ok Resp, st1)
      | .error (.error401 _) =>
        match fetchTokens env st1 with
        | (.error e2, st2) => (.error e2, st2)
        | (.ok Tokens, st2) =>
          fetchCounted c env Url Method Data Headers1 Config1 (Count + 1)
            (setRefreshTokenDefault
              (setAccessTokenDefault st2 (Tokens c.JWT_ACCESS_TOKEN_NAME))
              (Tokens c.JWT_REFRESH_TOKEN_NAME))
      | .error e => (.error e, st1)
termination_by c.MAX_CALL_COUNT - Count
decreasing_by omega

/-- `getCounted` (final variant): the GET analogue of `fetchCounted`,
without the strict status-range block. -/
def getCounted (c : Client) (env : Env) (Url : String) (Method : String)
    (Data : Option Jx) (Headers : HMap) (Config : FetchConfig) (Count : Nat) (st : St) :
    Except JsErr Response × St :=
  if h : Count ≥ c.MAX_CALL_COUNT then
    (.error (.errorMaxCallCount "[getCounted]"), st)
  else
    match getViaJwt c env Url Data Headers Config st with
    | (r, Headers1, Config1, st1) =>
      match r.bind onResponseCheck401 with
      | .ok Resp => (.ok Resp, st1)
      | .error (.error401 _) =>
        match fetchTokens env st1 with
        | (.error e2, st2) => (.error e2, st2)
        | (.ok Tokens, st2) =>
          getCounted c env Url Method Data Headers1 Config1 (Count + 1)
            (setRefreshTokenDefault
              (setAccessTokenDefault st2 (Tokens c.JWT_ACCESS_TOKEN_NAME))
              (Tokens c.JWT_REFRESH_TOKEN_NAME))
      | .error e => (.error e, st1)
termination_by c.MAX_CALL_COUNT - Count
decreasing_by omega

/-- `fetchJSON`: runs the before-handlers, performs the counted call,
JSON-decodes the final response and runs the after-handlers with the
parsed result; a rejected body decoding propagates and skips the
after-handlers. -/
def fetchJSON (c : Client) (env : Env) (Url : String) (Method : String)
    (Data : Option Jx) (Headers : HMap) (Config : FetchConfig) (st : St) :
    Except JsErr Jx × St :=
  match fetchCounted c env Url Method Data Headers Config 0 (startBeforeHandlers c st) with
  | (.error e, st1) => (.error e, st1)
  | (.ok Resp, st1) =>
    match Resp.json with
    | .error msg => (.error (.jsonParse msg), st1)
    | .ok Result => (.ok Result, startAfterHandlers c Result st1)

/-- `getJSON`: the GET analogue of `fetchJSON`, through `getCounted`. -/
def getJSON (c : Client) (env : Env) (Url : String) (Data : Option Jx)
    (Headers : HMap) (Config : FetchConfig) (st : St) :
    Except JsErr Jx × St :=
  match getCounted c env Url "GET" Data Headers Config 0 (startBeforeHandlers c st) with
  | (.error e, st1) => (.error e, st1)
  | (.ok Resp, st1) =>
    match Resp.json with
    | .error msg => (.error (.jsonParse msg), st1)
    | .ok Result => (.ok Result, startAfterHandlers c Result st1)

/-- Verb `get`, an alias for `getJSON`. -/
def get (c : Client) (env : Env) (Url : String) (Data : Option Jx)
    (Headers : HMap) (Config : FetchConfig) (st : St) : Except JsErr Jx × St :=
  getJSON c env Url Data Headers Config st

/-- Verb `post`, an alias for `fetchJSON` with method POST. -/
def post (c : Client) (env : Env) (Url : String) (Data : Option Jx)
    (Headers : HMap) (Config : FetchConfig) (st : St) : Except JsErr Jx × St :=
  fetchJSON c env Url "POST" Data Headers Config st

/-- Verb `put`, an alias for `fetchJSON` with method PUT. -/
def put (c : Client) (env : Env) (Url : String) (Data : Option Jx)
    (Headers : HMap) (Config : FetchConfig) (st : St) : Except JsErr Jx × St :=
  fetchJSON c env Url "PUT" Data Headers Config st

/-- Verb `delete`, an alias for `fetchJSON` with method DELETE. -/
def delete (c : Client) (env : Env) (Url : String) (Data : Option Jx)
    (Headers : HMap) (Config : FetchConfig) (st : St) : Except JsErr Jx × St :=
  fetchJSON c env Url "DELETE" Data Headers Config st

/-- Spec-side definition, following the spec's words for the header
precedence claim: the merge, in lowest-to-highest precedence order, of
`CommonHeaders`, the Content-Type default, the caller-supplied headers and
the computed Authorization bearer header. -/
def specHeaderMerge (c : Client) (callerHeaders : HMap) (accessToken : String) : HMap :=
  hassign
    (hassign (hassign (hassign hempty c.CommonHeaders) contentTypeDefault) callerHeaders)
    (hset hempty "Authorization" ("Bearer " ++ accessToken))

/-- Discriminator: is this error an `ErrorHTTPStatus`. -/
def isErrorHTTPStatus : JsErr → Bool
  | .errorHTTPStatus _ _ => true
  | _ => false

/-- Discriminator on a call outcome: did it reject with `ErrorHTTPStatus`. -/
def rejectsWithHTTPStatus (r : Except JsErr Jx) : Bool :=
  match r with
  | .error e => isErrorHTTPStatus e
  | .ok _ => false

/-- Discriminator: is this error an `Error401`. -/
def isError401 : JsErr → Bool
  | .error401 _ => true
  | _ => false

/-- Fixture: a client built with all constructor defaults. -/
def clientDefault : Client := {}

/-- Fixture: a client constructed with MaxCallCount 1. -/
def clientMax1 : Client := { MAX_CALL_COUNT := 1 }

/-- Fixture: a refresh result carrying fresh BEARER and REFRESH entries. -/
def tokensBoth : String → Option String := fun k =>
  if k = "BEARER" then some "A2" else if k = "REFRESH" then some "R2" else none

/-- Fixture: a refresh result carrying only a BEARER entry. -/
def tokensAccessOnly : String → Option String := fun k =>
  if k = "BEARER" then some "A3" else none

/-- Fixture: environment answering 401 to every dispatch and a fresh token
pair to every refresh call. -/
def envAll401 : Env :=
  { responses := fun _ => { status := 401, json := .ok .jnull }
    tokens := fun _ => .ok tokensBoth }

/-- Fixture: environment answering 401 to the first dispatch and 200 with
a small JSON body afterwards; refreshes deliver only an access token. -/
def env401Then200 : Env :=
  { responses := fun k =>
      if k = 0 then { status := 401, json := .ok .jnull }
      else { status := 200, json := .ok (.jobj [("ok", .jbool true)]) }
    tokens := fun _ => .ok tokensAccessOnly }

/-- Fixture: environment answering 500 with a parsed body that has no
data field. -/
def env500 : Env :=
  { responses := fun _ => { status := 500, json := .ok (.jobj [("a", .jnum 1)]) }
    tokens := fun _ => .ok tokensBoth }

/-- Fixture: environment always answering 200 with a small JSON body. -/
def env200 : Env :=
  { responses := fun _ => { status := 200, json := .ok (.jobj [("ok", .jbool true)]) }
    tokens := fun _ => .ok tokensBoth }

/-- Fixture: initial state with stored access token T, refresh token R1
and an empty trace. -/
def stInit : St := { accessToken := some "T", refreshToken := some "R1", events := [] }

/-- Fixture: initial state with no stored access token. -/
def stNoAccess : St := { accessToken := none, refreshToken := some "R1", events := [] }

/-!  Helper lemmas about traces, setters and the dispatch layer. -/

theorem countDispatch_append (a b : List Ev) :
    countDispatch (a ++ b) = countDispatch a + countDispatch b :=
  List.countP_append _ _ _

theorem countRefresh_append (a b : List Ev) :
    countRefresh (a ++ b) = countRefresh a + countRefresh b :=
  List.countP_append _ _ _

theorem countDispatch_beforeMap (l : List Nat) :
    countDispatch (l.map Ev.beforeHandler) = 0 := by
  rw [countDispatch, List.countP_eq_zero]
  intro a ha
  obtain ⟨i, _, rfl⟩ := List.mem_map.mp ha
  simp [isDispatchEv]

theorem countRefresh_beforeMap (l : List Nat) :
    countRefresh (l.map Ev.beforeHandler) = 0 := by
  rw [countRefresh, List.countP_eq_zero]
  intro a ha
  obtain ⟨i, _, rfl⟩ := List.mem_map.mp ha
  simp [isRefreshEv]

theorem countDispatch_afterMap (l : List Nat) (R : Jx) :
    countDispatch (l.map (fun i => Ev.afterHandler i R)) = 0 := by
  rw [countDispatch, List.countP_eq_zero]
  intro a ha
  obtain ⟨i, _, rfl⟩ := List.mem_map.mp ha
  simp [isDispatchEv]

theorem countRefresh_afterMap (l : List Nat) (R : Jx) :
    countRefresh (l.map (fun i => Ev.afterHandler i R)) = 0 := by
  rw [countRefresh, List.countP_eq_zero]
  intro a ha
  obtain ⟨i, _, rfl⟩ := List.mem_map.mp ha
  simp [isRefreshEv]

theorem setAccessTokenDefault_events (st : St) (v : Option String) :
    (setAccessTokenDefault st v).events = st.events := by
  rw [setAccessTokenDefault]; split <;> rfl

theorem setAccessTokenDefault_refreshToken (st : St) (v : Option String) :
    (setAccessTokenDefault st v).refreshToken = st.refreshToken := by
  rw [setAccessTokenDefault]; split <;> rfl

theorem setAccessTokenDefault_truthy (st : St) (v : Option String)
    (h : jsTruthyStr st.accessToken = true) :
    jsTruthyStr (setAccessTokenDefault st v).accessToken = true := by
  rw [setAccessTokenDefault]
  split
  · assumption
  · exact h

theorem setRefreshTokenDefault_events (st : St) (v : Option String) :
    (setRefreshTokenDefault st v).events = st.events := by
  rw [setRefreshTokenDefault]; split <;> rfl

theorem setRefreshTokenDefault_accessToken (st : St) (v : Option String) :
    (setRefreshTokenDefault st v).accessToken = st.accessToken := by
  rw [setRefreshTokenDefault]; split <;> rfl

theorem setAccessTokenDefault_noop (st : St) (v : Option String)
    (h : jsTruthyStr v = false) : setAccessTokenDefault st v = st := by
  simp [setAccessTokenDefault, h]

theorem setRefreshTokenDefault_noop (st : St) (v : Option String)
    (h : jsTruthyStr v = false) : setRefreshTokenDefault st v = st := by
  simp [setRefreshTokenDefault, h]

theorem onResponseCheck401_of_ne (Resp : Response) (h : Resp.status ≠ 401) :
    onResponseCheck401 Resp = .ok Resp := by
  simp [onResponseCheck401, checkFetchResponseStatus, HTTP_UNAUTHORIZED_CODE, h]

theorem onResponseCheck401_of_401 (Resp : Response) (h : Resp.status = 401) :
    onResponseCheck401 Resp = .error (.error401 "[onResponseCheck401]") := by
  simp [onResponseCheck401, checkFetchResponseStatus, HTTP_UNAUTHORIZED_CODE, h]

theorem strictStatusCheck_inRange (c : Client) (Resp : Response)
    (h1 : 200 ≤ Resp.status) (h2 : Resp.status < 300) :
    strictStatusCheck c Resp = .ok Resp := by
  have hcond : (getFetchResponseStatus Resp < 200 || getFetchResponseStatus Resp ≥ 300) = false := by
    simp [getFetchResponseStatus]
    omega
  rw [strictStatusCheck, hcond]
  split <;> rfl

theorem strictStatusCheck_out_errors (c : Client) (Resp : Response)
    (hflag : c.ErrorWhenNot2xxFlag = true)
    (hout : Resp.status < 200 ∨ 300 ≤ Resp.status) :
    ∃ e, strictStatusCheck c Resp = .error e := by
  have hcond : (getFetchResponseStatus Resp < 200 || getFetchResponseStatus Resp ≥ 300) = true := by
    simp [getFetchResponseStatus]
    omega
  rw [strictStatusCheck, hflag, hcond]
  simp only [Bool.not_true, Bool.false_eq_true, if_false, if_true]
  rcases hj : Resp.json with msg | Result
  · exact ⟨_, rfl⟩
  · dsimp only
    rcases hd : dataDotErrors Result with e2 | errs
    · exact ⟨e2, rfl⟩
    · exact ⟨_, rfl⟩

theorem Jx.prop_err_ne401 (v : Jx) (k : String) (e : JsErr)
    (h : v.prop k = .error e) : isError401 e = false := by
  cases v with
  | jnull =>
    simp only [Jx.prop] at h
    cases h
    rfl
  | jbool b => exact Except.noConfusion h
  | jnum n => exact Except.noConfusion h
  | jstr s => exact Except.noConfusion h
  | jobj fields => exact Except.noConfusion h

theorem dataDotErrors_err_ne401 (Result : Jx) (e : JsErr)
    (h : dataDotErrors Result = .error e) : isError401 e = false := by
  rw [dataDotErrors] at h
  rcases hp : Result.prop "data" with ep | d
  · rw [hp] at h
    dsimp only at h
    cases h
    exact Jx.prop_err_ne401 _ _ _ hp
  · rw [hp] at h
    cases d with
    | none =>
      dsimp only at h
      cases h
      rfl
    | some d =>
      dsimp only at h
      exact Jx.prop_err_ne401 _ _ _ h

theorem strictStatusCheck_err_ne401 (c : Client) (Resp : Response) (e : JsErr)
    (h : strictStatusCheck c Resp = .error e) : isError401 e = false := by
  rw [strictStatusCheck] at h
  by_cases hf : c.ErrorWhenNot2xxFlag
  · rw [hf] at h
    simp only [Bool.not_true, Bool.false_eq_true, if_false] at h
    by_cases hc : (getFetchResponseStatus Resp < 200 || getFetchResponseStatus Resp ≥ 300)
    · rw [if_pos hc] at h
      rcases hj : Resp.json with msg | Result <;> rw [hj] at h <;> dsimp only at h
      · cases h
        rfl
      · rcases hd : dataDotErrors Result with e2 | errs <;> rw [hd] at h <;> dsimp only at h
        · cases h
          exact dataDotErrors_err_ne401 _ _ hd
        · cases h
          rfl
    · rw [if_neg hc] at h
      cases h
  · have hf2 : c.ErrorWhenNot2xxFlag = false := by
      cases hx : c.ErrorWhenNot2xxFlag
      · rfl
      · exact absurd hx hf
    rw [hf2] at h
    simp only [Bool.not_false, if_true] at h
    cases h

/-- Characterization of `fetchViaJwt` when a truthy access token is stored:
the request is dispatched and the state gains exactly one dispatch event. -/
theorem fetchViaJwt_dispatch (c : Client) (env : Env) (Url Method : String)
    (Data : Option Jx) (Headers : HMap) (Config : FetchConfig) (st : St)
    (htok : jsTruthyStr st.accessToken = true) :
    ∃ H1 C1 req,
      fetchViaJwt c env Url Method Data Headers Config st =
        (.ok (env.responses (countDispatch st.events)), H1, C1,
         { st with events := st.events ++ [Ev.dispatch req] }) := by
  rw [fetchViaJwt]
  by_cases hA : c.AuthorizationFlag
  · rw [if_pos hA]
    rw [getAccessTokenDefault, htok]
    simp only [Bool.not_true, Bool.false_eq_true, if_false]
    rw [fetch]
    exact ⟨_, _, _, rfl⟩
  · rw [if_neg hA]
    rw [fetch]
    exact ⟨_, _, _, rfl⟩

/-- Characterization of `fetchViaJwt` when authorization is on and no
truthy access token is stored: immediate rejection, nothing dispatched,
nothing mutated. -/
theorem fetchViaJwt_no_token (c : Client) (env : Env) (Url Method : String)
    (Data : Option Jx) (Headers : HMap) (Config : FetchConfig) (st : St)
    (hA : c.AuthorizationFlag = true) (htok : jsTruthyStr st.accessToken = false) :
    fetchViaJwt c env Url Method Data Headers Config st =
      (.error (.errorNoAccessToken "[fetchViaJwt]"), Headers, Config, st) := by
  rw [fetchViaJwt, if_pos hA, getAccessTokenDefault, htok]
  rfl

/-- Characterization of `fetchViaJwt` when authorization is off: the
request is dispatched regardless of the stored token. -/
theorem fetchViaJwt_dispatch_noauth (c : Client) (env : Env) (Url Method : String)
    (Data : Option Jx) (Headers : HMap) (Config : FetchConfig) (st : St)
    (hA : c.AuthorizationFlag = false) :
    ∃ H1 C1 req,
      fetchViaJwt c env Url Method Data Headers Config st =
        (.ok (env.responses (countDispatch st.events)), H1, C1,
         { st with events := st.events ++ [Ev.dispatch req] }) := by
  rw [fetchViaJwt, hA]
  simp only [Bool.false_eq_true, if_false]
  rw [fetch]
  exact ⟨_, _, _, rfl⟩

/-- Every run of `fetchViaJwt` either rejects before the network with
`ErrorNoAccessToken`, or dispatches exactly once. -/
theorem fetchViaJwt_cases (c : Client) (env : Env) (Url Method : String)
    (Data : Option Jx) (Headers : HMap) (Config : FetchConfig) (st : St) :
    fetchViaJwt c env Url Method Data Headers Config st =
        (.error (.errorNoAccessToken "[fetchViaJwt]"), Headers, Config, st) ∨
    ∃ H1 C1 req,
      fetchViaJwt c env Url Method Data Headers Config st =
        (.ok (env.responses (countDispatch st.events)), H1, C1,
         { st with events := st.events ++ [Ev.dispatch req] }) := by
  by_cases hA : c.AuthorizationFlag
  · by_cases htok : jsTruthyStr st.accessToken
    · exact Or.inr (fetchViaJwt_dispatch c env Url Method Data Headers Config st htok)
    · exact Or.inl (fetchViaJwt_no_token c env Url Method Data Headers Config st hA
        (Bool.not_eq_true _ ▸ htok))
  · exact Or.inr (fetchViaJwt_dispatch_noauth c env Url Method Data Headers Config st
      (Bool.not_eq_true _ ▸ hA))

/-- Count of a single dispatch event. -/
theorem countRefresh_dispatch_one (req : RequestRec) :
    countRefresh [Ev.dispatch req] = 0 := rfl

theorem countDispatch_dispatch_one (req : RequestRec) :
    countDispatch [Ev.dispatch req] = 1 := rfl

theorem countRefresh_refresh_one : countRefresh [Ev.refreshCall] = 1 := rfl

theorem countDispatch_refresh_one : countDispatch [Ev.refreshCall] = 0 := rfl

/-- Behaviour of the counted fetch loop when every dispatched response has
status 401 and every refresh call succeeds: the loop ends in
`ErrorMaxCallCount` and performs exactly one refresh and one dispatch per
remaining allowed attempt. -/
theorem fetchCounted_always401 (c : Client) (env : Env) (Url Method : String)
    (Data : Option Jx)
    (h401 : ∀ k, (env.responses k).status = 401)
    (htok : ∀ k, ∃ T, env.tokens k = Except.ok T) :
    ∀ n (Headers : HMap) (Config : FetchConfig) (Count : Nat) (st : St),
      c.MAX_CALL_COUNT = Count + n →
      jsTruthyStr st.accessToken = true →
      (fetchCounted c env Url Method Data Headers Config Count st).1 =
          .error (.errorMaxCallCount "[fetchCounted]") ∧
      countRefresh (fetchCounted c env Url Method Data Headers Config Count st).2.events =
          countRefresh st.events + n ∧
      countDispatch (fetchCounted c env Url Method Data Headers Config Count st).2.events =
          countDispatch st.events + n := by
  intro n
  induction n with
  | zero =>
    intro Headers Config Count st hmax htk
    rw [fetchCounted.eq_def, dif_pos (by omega : Count ≥ c.MAX_CALL_COUNT)]
    exact ⟨rfl, rfl, rfl⟩
  | succ m ih =>
    intro Headers Config Count st hmax htk
    obtain ⟨H1, C1, req, hfv⟩ := fetchViaJwt_dispatch c env Url Method Data Headers Config st htk
    obtain ⟨T, hT⟩ := htok (countRefresh (st.events ++ [Ev.dispatch req]))
    rw [fetchCounted.eq_def, dif_neg (by omega : ¬ Count ≥ c.MAX_CALL_COUNT), hfv]
    dsimp only
    rw [Except.bind, onResponseCheck401_of_401 _ (h401 (countDispatch st.events))]
    dsimp only [Except.bind]
    rw [fetchTokens]
    dsimp only
    rw [hT]
    dsimp only
    have htk3 : jsTruthyStr
        (setRefreshTokenDefault
          (setAccessTokenDefault
            { accessToken := st.accessToken, refreshToken := st.refreshToken,
              events := (st.events ++ [Ev.dispatch req]) ++ [Ev.refreshCall] }
            (T c.JWT_ACCESS_TOKEN_NAME))
          (T c.JWT_REFRESH_TOKEN_NAME)).accessToken = true := by
      rw [setRefreshTokenDefault_accessToken]
      exact setAccessTokenDefault_truthy _ _ htk
    obtain ⟨ih1, ih2, ih3⟩ := ih H1 C1 (Count + 1) _ (by omega) htk3
    refine ⟨ih1, ?_, ?_⟩
    · rw [ih2, setRefreshTokenDefault_events, setAccessTokenDefault_events]
      dsimp only
      rw [countRefresh_append, countRefresh_append, countRefresh_dispatch_one,
        countRefresh_refresh_one]
      omega
    · rw [ih3, setRefreshTokenDefault_events, setAccessTokenDefault_events]
      dsimp only
      rw [countDispatch_append, countDispatch_append, countDispatch_dispatch_one,
        countDispatch_refresh_one]
      omega

/-- The GET analogue of `fetchCounted_always401`, for `getCounted`. -/
theorem getCounted_always401 (c : Client) (env : Env) (Url Method : String)
    (Data : Option Jx)
    (h401 : ∀ k, (env.responses k).status = 401)
    (htok : ∀ k, ∃ T, env.tokens k = Except.ok T) :
    ∀ n (Headers : HMap) (Config : FetchConfig) (Count : Nat) (st : St),
      c.MAX_CALL_COUNT = Count + n →
      jsTruthyStr st.accessToken = true →
      (getCounted c env Url Method Data Headers Config Count st).1 =
          .error (.errorMaxCallCount "[getCounted]") ∧
      countRefresh (getCounted c env Url Method Data Headers Config Count st).2.events =
          countRefresh st.events + n ∧
      countDispatch (getCounted c env Url Method Data Headers Config Count st).2.events =
          countDispatch st.events + n := by
  intro n
  induction n with
  | zero =>
    intro Headers Config Count st hmax htk
    rw [getCounted.eq_def, dif_pos (by omega : Count ≥ c.MAX_CALL_COUNT)]
    exact ⟨rfl, rfl, rfl⟩
  | succ m ih =>
    intro Headers Config Count st hmax htk
    obtain ⟨H1, C1, req, hfv⟩ := fetchViaJwt_dispatch c env (generateGetUrl Url Data) "GET"
      none Headers Config st htk
    obtain ⟨T, hT⟩ := htok (countRefresh (st.events ++ [Ev.dispatch req]))
    rw [getCounted.eq_def, dif_neg (by omega : ¬ Count ≥ c.MAX_CALL_COUNT), getViaJwt, hfv]
    dsimp only
    rw [Except.bind, onResponseCheck401_of_401 _ (h401 (countDispatch st.events))]
    rw [fetchTokens]
    dsimp only
    rw [hT]
    dsimp only
    have htk3 : jsTruthyStr
        (setRefreshTokenDefault
          (setAccessTokenDefault
            { accessToken := st.accessToken, refreshToken := st.refreshToken,
              events := (st.events ++ [Ev.dispatch req]) ++ [Ev.refreshCall] }
            (T c.JWT_ACCESS_TOKEN_NAME))
          (T c.JWT_REFRESH_TOKEN_NAME)).accessToken = true := by
      rw [setRefreshTokenDefault_accessToken]
      exact setAccessTokenDefault_truthy _ _ htk
    obtain ⟨ih1, ih2, ih3⟩ := ih H1 C1 (Count + 1) _ (by omega) htk3
    refine ⟨ih1, ?_, ?_⟩
    · rw [ih2, setRefreshTokenDefault_events, setAccessTokenDefault_events]
      dsimp only
      rw [countRefresh_append, countRefresh_append, countRefresh_dispatch_one,
        countRefresh_refresh_one]
      omega
    · rw [ih3, setRefreshTokenDefault_events, setAccessTokenDefault_events]
      dsimp only
      rw [countDispatch_append, countDispatch_append, countDispatch_dispatch_one,
        countDispatch_refresh_one]
      omega

theorem onResponseCheck401_error (Resp : Response) (e : JsErr)
    (h : onResponseCheck401 Resp = .error e) : e = .error401 "[onResponseCheck401]" := by
  rw [onResponseCheck401] at h
  split at h
  · cases h
    rfl
  · cases h

theorem mem_dispatch_single (req : RequestRec) :
    ∀ e ∈ [Ev.dispatch req], isDispatchEv e = true ∨ isRefreshEv e = true := by
  intro e he
  simp only [List.mem_singleton] at he
  subst he
  exact Or.inl rfl

theorem mem_dispatch_refresh_pair (req : RequestRec) :
    ∀ e ∈ [Ev.dispatch req, Ev.refreshCall],
      isDispatchEv e = true ∨ isRefreshEv e = true := by
  intro e he
  simp only [List.mem_cons, List.mem_singleton, List.not_mem_nil, or_false] at he
  rcases he with rfl | rfl
  · exact Or.inl rfl
  · exact Or.inr rfl

/-- General invariant of the counted fetch loop, for an arbitrary
environment: the state only grows by dispatch and refresh events, at most
`MAX_CALL_COUNT - Count` refreshes happen, every refresh is preceded by its
own dispatch (so the dispatch count exceeds the refresh count by at most
one), and when no refresh ever delivers a truthy refresh token the stored
refresh token is left untouched. -/
theorem fetchCounted_frame (c : Client) (env : Env) (Url Method : String)
    (Data : Option Jx) :
    ∀ n (Headers : HMap) (Config : FetchConfig) (Count : Nat) (st : St),
      c.MAX_CALL_COUNT - Count = n →
      ∃ tail,
        (fetchCounted c env Url Method Data Headers Config Count st).2.events =
            st.events ++ tail ∧
        (∀ e ∈ tail, isDispatchEv e = true ∨ isRefreshEv e = true) ∧
        countRefresh tail ≤ n ∧
        (countDispatch tail = countRefresh tail ∨
         countDispatch tail = countRefresh tail + 1) ∧
        ((∀ k T, env.tokens k = Except.ok T →
            jsTruthyStr (T c.JWT_REFRESH_TOKEN_NAME) = false) →
          (fetchCounted c env Url Method Data Headers Config Count st).2.refreshToken =
            st.refreshToken) := by
  intro n
  induction n with
  | zero =>
    intro Headers Config Count st hn
    rw [fetchCounted.eq_def, dif_pos (by omega : Count ≥ c.MAX_CALL_COUNT)]
    exact ⟨[], by simp, by simp, by simp [countRefresh], Or.inl rfl, fun _ => rfl⟩
  | succ m ih =>
    intro Headers Config Count st hn
    rw [fetchCounted.eq_def, dif_neg (by omega : ¬ Count ≥ c.MAX_CALL_COUNT)]
    rcases fetchViaJwt_cases c env Url Method Data Headers Config st with hfv |
      ⟨H1, C1, req, hfv⟩
    · rw [hfv]
      dsimp only [Except.bind]
      exact ⟨[], by simp, by simp, by simp [countRefresh], Or.inl rfl, fun _ => rfl⟩
    · rw [hfv]
      dsimp only [Except.bind]
      rcases ho : onResponseCheck401 (env.responses (countDispatch st.events)) with e1 | resp2
      · have he1 := onResponseCheck401_error _ _ ho
        subst he1
        rw [fetchTokens]
        dsimp only [Except.bind]
        rcases htk : env.tokens (countRefresh (st.events ++ [Ev.dispatch req])) with e2 | T
        · refine ⟨[Ev.dispatch req, Ev.refreshCall], by simp,
            mem_dispatch_refresh_pair req, ?_, Or.inl rfl, fun _ => rfl⟩
          have h1 : countRefresh [Ev.dispatch req, Ev.refreshCall] = 1 := rfl
          omega
        · obtain ⟨tail2, htl1, htl2, htl3, htl4, htl5⟩ := ih H1 C1 (Count + 1)
            (setRefreshTokenDefault
              (setAccessTokenDefault
                { accessToken := st.accessToken, refreshToken := st.refreshToken,
                  events := (st.events ++ [Ev.dispatch req]) ++ [Ev.refreshCall] }
                (T c.JWT_ACCESS_TOKEN_NAME))
              (T c.JWT_REFRESH_TOKEN_NAME)) (by omega)
          refine ⟨[Ev.dispatch req, Ev.refreshCall] ++ tail2, ?_, ?_, ?_, ?_, ?_⟩
          · rw [htl1, setRefreshTokenDefault_events, setAccessTokenDefault_events]
            simp
          · intro e he
            rcases List.mem_append.mp he with h2 | h2
            · exact mem_dispatch_refresh_pair req e h2
            · exact htl2 e h2
          · rw [countRefresh_append]
            have h1 : countRefresh [Ev.dispatch req, Ev.refreshCall] = 1 := rfl
            omega
          · rw [countRefresh_append, countDispatch_append]
            have h1 : countRefresh [Ev.dispatch req, Ev.refreshCall] = 1 := rfl
            have h2 : countDispatch [Ev.dispatch req, Ev.refreshCall] = 1 := rfl
            omega
          · intro hnotok
            rw [htl5 hnotok, setRefreshTokenDefault_noop _ _ (hnotok _ _ htk),
              setAccessTokenDefault_refreshToken]
      · dsimp only [Except.bind]
        rcases hsc : strictStatusCheck c resp2 with e3 | resp3
        · have hne := strictStatusCheck_err_ne401 c resp2 e3 hsc
          cases e3 with
          | error401 tag => exact absurd hne (by simp [isError401])
          | error404 tag =>
            refine ⟨[Ev.dispatch req], by simp, mem_dispatch_single req, ?_,
              Or.inr rfl, fun _ => rfl⟩
            have h1 : countRefresh [Ev.dispatch req] = 0 := rfl
            omega
          | errorMaxCallCount tag =>
            refine ⟨[Ev.dispatch req], by simp, mem_dispatch_single req, ?_,
              Or.inr rfl, fun _ => rfl⟩
            have h1 : countRefresh [Ev.dispatch req] = 0 := rfl
            omega
          | errorNoAccessToken tag =>
            refine ⟨[Ev.dispatch req], by simp, mem_dispatch_single req, ?_,
              Or.inr rfl, fun _ => rfl⟩
            have h1 : countRefresh [Ev.dispatch req] = 0 := rfl
            omega
          | errorHTTPStatus msg s =>
            refine ⟨[Ev.dispatch req], by simp, mem_dispatch_single req, ?_,
              Or.inr rfl, fun _ => rfl⟩
            have h1 : countRefresh [Ev.dispatch req] = 0 := rfl
            omega
          | typeError =>
            refine ⟨[Ev.dispatch req], by simp, mem_dispatch_single req, ?_,
              Or.inr rfl, fun _ => rfl⟩
            have h1 : countRefresh [Ev.dispatch req] = 0 := rfl
            omega
          | jsonParse msg =>
            refine ⟨[Ev.dispatch req], by simp, mem_dispatch_single req, ?_,
              Or.inr rfl, fun _ => rfl⟩
            have h1 : countRefresh [Ev.dispatch req] = 0 := rfl
            omega
        · refine ⟨[Ev.dispatch req], by simp, mem_dispatch_single req, ?_,
            Or.inr rfl, fun _ => rfl⟩
          have h1 : countRefresh [Ev.dispatch req] = 0 := rfl
          omega

/-- Trace invariant of the counted GET loop: the state only grows by
dispatch and refresh events (in particular no before- or after-handler
runs happen inside the loop). -/
theorem getCounted_frame (c : Client) (env : Env) (Url Method : String)
    (Data : Option Jx) :
    ∀ n (Headers : HMap) (Config : FetchConfig) (Count : Nat) (st : St),
      c.MAX_CALL_COUNT - Count = n →
      ∃ tail,
        (getCounted c env Url Method Data Headers Config Count st).2.events =
            st.events ++ tail ∧
        (∀ e ∈ tail, isDispatchEv e = true ∨ isRefreshEv e = true) := by
  intro n
  induction n with
  | zero =>
    intro Headers Config Count st hn
    rw [getCounted.eq_def, dif_pos (by omega : Count ≥ c.MAX_CALL_COUNT)]
    exact ⟨[], by simp, by simp⟩
  | succ m ih =>
    intro Headers Config Count st hn
    rw [getCounted.eq_def, dif_neg (by omega : ¬ Count ≥ c.MAX_CALL_COUNT), getViaJwt]
    rcases fetchViaJwt_cases c env (generateGetUrl Url Data) "GET" none Headers Config st
      with hfv | ⟨H1, C1, req, hfv⟩
    · rw [hfv]
      dsimp only [Except.bind]
      exact ⟨[], by simp, by simp⟩
    · rw [hfv]
      dsimp only [Except.bind]
      rcases ho : onResponseCheck401 (env.responses (countDispatch st.events)) with e1 | resp2
      · have he1 := onResponseCheck401_error _ _ ho
        subst he1
        rw [fetchTokens]
        dsimp only
        rcases htk : env.tokens (countRefresh (st.events ++ [Ev.dispatch req])) with e2 | T
        · exact ⟨[Ev.dispatch req, Ev.refreshCall], by simp, mem_dispatch_refresh_pair req⟩
        · obtain ⟨tail2, htl1, htl2⟩ := ih H1 C1 (Count + 1)
            (setRefreshTokenDefault
              (setAccessTokenDefault
                { accessToken := st.accessToken, refreshToken := st.refreshToken,
                  events := (st.events ++ [Ev.dispatch req]) ++ [Ev.refreshCall] }
                (T c.JWT_ACCESS_TOKEN_NAME))
              (T c.JWT_REFRESH_TOKEN_NAME)) (by omega)
          refine ⟨[Ev.dispatch req, Ev.refreshCall] ++ tail2, ?_, ?_⟩
          · rw [htl1, setRefreshTokenDefault_events, setAccessTokenDefault_events]
            simp
          · intro e he
            rcases List.mem_append.mp he with h2 | h2
            · exact mem_dispatch_refresh_pair req e h2
            · exact htl2 e h2
      · exact ⟨[Ev.dispatch req], by simp, mem_dispatch_single req⟩

theorem isRefreshEv_of_after (e : Ev) (h : isAfterEv e = true) :
    isRefreshEv e = false := by
  cases e <;> simp_all [isAfterEv, isRefreshEv]

theorem isDispatchEv_of_after (e : Ev) (h : isAfterEv e = true) :
    isDispatchEv e = false := by
  cases e <;> simp_all [isAfterEv, isDispatchEv]

theorem isBeforeEv_of_net (e : Ev)
    (h : isDispatchEv e = true ∨ isRefreshEv e = true) : isBeforeEv e = false := by
  cases e <;> simp_all [isBeforeEv, isDispatchEv, isRefreshEv]

theorem countRefresh_of_all_after (l : List Ev) (h : ∀ e ∈ l, isAfterEv e = true) :
    countRefresh l = 0 := by
  rw [countRefresh, List.countP_eq_zero]
  intro e he
  simp [isRefreshEv_of_after e (h e he)]

theorem countDispatch_of_all_after (l : List Ev) (h : ∀ e ∈ l, isAfterEv e = true) :
    countDispatch l = 0 := by
  rw [countDispatch, List.countP_eq_zero]
  intro e he
  simp [isDispatchEv_of_after e (h e he)]

/-- Decomposition of a `fetchJSON` run into its counted-loop part and the
after-handler events appended on success; token stores are not touched
after the loop. -/
theorem fetchJSON_trace (c : Client) (env : Env) (Url Method : String)
    (Data : Option Jx) (Headers : HMap) (Config : FetchConfig) (st : St) :
    ∃ atail,
      (fetchJSON c env Url Method Data Headers Config st).2.events =
        (fetchCounted c env Url Method Data Headers Config 0
          (startBeforeHandlers c st)).2.events ++ atail ∧
      (∀ e ∈ atail, isAfterEv e = true) ∧
      (fetchJSON c env Url Method Data Headers Config st).2.refreshToken =
        (fetchCounted c env Url Method Data Headers Config 0
          (startBeforeHandlers c st)).2.refreshToken := by
  rw [fetchJSON.eq_def]
  rcases hfc : fetchCounted c env Url Method Data Headers Config 0
    (startBeforeHandlers c st) with ⟨r, st2⟩
  cases r with
  | error e => exact ⟨[], by simp, by simp, rfl⟩
  | ok Resp =>
    dsimp only
    rcases hj : Resp.json with msg | Result
    · exact ⟨[], by simp, by simp, rfl⟩
    · dsimp only [startAfterHandlers]
      refine ⟨c.AfterHandlers.map (fun i => Ev.afterHandler i Result), rfl, ?_, rfl⟩
      intro e he
      obtain ⟨i, _, rfl⟩ := List.mem_map.mp he
      rfl

/-- The GET analogue of `fetchJSON_trace`, for `getJSON`. -/
theorem getJSON_trace (c : Client) (env : Env) (Url : String)
    (Data : Option Jx) (Headers : HMap) (Config : FetchConfig) (st : St) :
    ∃ atail,
      (getJSON c env Url Data Headers Config st).2.events =
        (getCounted c env Url "GET" Data Headers Config 0
          (startBeforeHandlers c st)).2.events ++ atail ∧
      (∀ e ∈ atail, isAfterEv e = true) ∧
      (getJSON c env Url Data Headers Config st).2.refreshToken =
        (getCounted c env Url "GET" Data Headers Config 0
          (startBeforeHandlers c st)).2.refreshToken := by
  rw [getJSON.eq_def]
  rcases hfc : getCounted c env Url "GET" Data Headers Config 0
    (startBeforeHandlers c st) with ⟨r, st2⟩
  cases r with
  | error e => exact ⟨[], by simp, by simp, rfl⟩
  | ok Resp =>
    dsimp only
    rcases hj : Resp.json with msg | Result
    · exact ⟨[], by simp, by simp, rfl⟩
    · dsimp only [startAfterHandlers]
      refine ⟨c.AfterHandlers.map (fun i => Ev.afterHandler i Result), rfl, ?_, rfl⟩
      intro e he
      obtain ⟨i, _, rfl⟩ := List.mem_map.mp he
      rfl

/-- C1: a logical verb call whose dispatches always answer 401 and whose
refresh strategy always succeeds fails with `ErrorMaxCallCount` after
exactly `MAX_CALL_COUNT` refresh cycles, never more.  Shown for the
`fetchJSON` family backing post, put and delete (the method is arbitrary)
and for the GET path `getJSON`. -/
theorem claim_C1_max_call_count (c : Client) (env : Env) (Url Method : String)
    (Data : Option Jx) (Headers : HMap) (Config : FetchConfig) (st : St)
    (h401 : ∀ k, (env.responses k).status = 401)
    (htok : ∀ k, ∃ T, env.tokens k = Except.ok T)
    (hacc : jsTruthyStr st.accessToken = true)
    (hev : st.events = []) :
    ((fetchJSON c env Url Method Data Headers Config st).1 =
        .error (.errorMaxCallCount "[fetchCounted]") ∧
     countRefresh (fetchJSON c env Url Method Data Headers Config st).2.events =
        c.MAX_CALL_COUNT) ∧
    ((getJSON c env Url Data Headers Config st).1 =
        .error (.errorMaxCallCount "[getCounted]") ∧
     countRefresh (getJSON c env Url Data Headers Config st).2.events =
        c.MAX_CALL_COUNT) := by
  have hacc1 : jsTruthyStr (startBeforeHandlers c st).accessToken = true := hacc
  have hev1 : (startBeforeHandlers c st).events = c.BeforeHandlers.map Ev.beforeHandler := by
    rw [startBeforeHandlers]
    dsimp only
    rw [hev, List.nil_append]
  constructor
  · obtain ⟨f1, f2, f3⟩ := fetchCounted_always401 c env Url Method Data h401 htok
      c.MAX_CALL_COUNT Headers Config 0 (startBeforeHandlers c st) (by omega) hacc1
    have hpair : fetchCounted c env Url Method Data Headers Config 0
        (startBeforeHandlers c st) =
        (.error (.errorMaxCallCount "[fetchCounted]"),
         (fetchCounted c env Url Method Data Headers Config 0
           (startBeforeHandlers c st)).2) :=
      Prod.ext_iff.mpr ⟨f1, rfl⟩
    rw [fetchJSON.eq_def, hpair]
    dsimp only
    refine ⟨rfl, ?_⟩
    rw [f2, hev1, countRefresh_beforeMap]
    omega
  · obtain ⟨f1, f2, f3⟩ := getCounted_always401 c env Url "GET" Data h401 htok
      c.MAX_CALL_COUNT Headers Config 0 (startBeforeHandlers c st) (by omega) hacc1
    have hpair : getCounted c env Url "GET" Data Headers Config 0
        (startBeforeHandlers c st) =
        (.error (.errorMaxCallCount "[getCounted]"),
         (getCounted c env Url "GET" Data Headers Config 0
           (startBeforeHandlers c st)).2) :=
      Prod.ext_iff.mpr ⟨f1, rfl⟩
    rw [getJSON.eq_def, hpair]
    dsimp only
    refine ⟨rfl, ?_⟩
    rw [f2, hev1, countRefresh_beforeMap]
    omega

/-- Witness for C1 at a concrete client, environment and state. -/
theorem claim_C1_witness :
    ((fetchJSON clientDefault envAll401 "u" "POST" none hempty {} stInit).1 =
        .error (.errorMaxCallCount "[fetchCounted]") ∧
     countRefresh (fetchJSON clientDefault envAll401 "u" "POST" none hempty {} stInit).2.events =
        clientDefault.MAX_CALL_COUNT) ∧
    ((getJSON clientDefault envAll401 "u" none hempty {} stInit).1 =
        .error (.errorMaxCallCount "[getCounted]") ∧
     countRefresh (getJSON clientDefault envAll401 "u" none hempty {} stInit).2.events =
        clientDefault.MAX_CALL_COUNT) :=
  claim_C1_max_call_count clientDefault envAll401 "u" "POST" none hempty {} stInit
    (fun _ => rfl) (fun _ => ⟨tokensBoth, rfl⟩) rfl rfl

theorem isBeforeEv_of_after (e : Ev) (h : isAfterEv e = true) :
    isBeforeEv e = false := by
  cases e <;> simp_all [isAfterEv, isBeforeEv]

theorem Jx.prop_err_eq (v : Jx) (k : String) (e : JsErr)
    (h : v.prop k = .error e) : e = .typeError := by
  cases v with
  | jnull =>
    simp only [Jx.prop] at h
    cases h
    rfl
  | jbool b => exact Except.noConfusion h
  | jnum n => exact Except.noConfusion h
  | jstr s => exact Except.noConfusion h
  | jobj fields => exact Except.noConfusion h

theorem dataDotErrors_err_eq (Result : Jx) (e : JsErr)
    (h : dataDotErrors Result = .error e) : e = .typeError := by
  rw [dataDotErrors] at h
  rcases hp : Result.prop "data" with ep | d
  · rw [hp] at h
    dsimp only at h
    cases h
    exact Jx.prop_err_eq _ _ _ hp
  · rw [hp] at h
    cases d with
    | none =>
      dsimp only at h
      cases h
      rfl
    | some d =>
      dsimp only at h
      exact Jx.prop_err_eq _ _ _ h

theorem strictStatusCheck_err_not_max (c : Client) (Resp : Response) (e : JsErr)
    (h : strictStatusCheck c Resp = .error e) :
    ∀ tag, e ≠ JsErr.errorMaxCallCount tag := by
  rw [strictStatusCheck] at h
  by_cases hf : c.ErrorWhenNot2xxFlag
  · rw [hf] at h
    simp only [Bool.not_true, Bool.false_eq_true, if_false] at h
    by_cases hc : (getFetchResponseStatus Resp < 200 || getFetchResponseStatus Resp ≥ 300)
    · rw [if_pos hc] at h
      rcases hj : Resp.json with msg | Result <;> rw [hj] at h <;> dsimp only at h
      · cases h
        intro tag hx
        cases hx
      · rcases hd : dataDotErrors Result with e2 | errs <;> rw [hd] at h <;> dsimp only at h
        · cases h
          have he2 := dataDotErrors_err_eq _ _ hd
          subst he2
          intro tag hx
          cases hx
        · cases h
          intro tag hx
          cases hx
    · rw [if_neg hc] at h
      cases h
  · have hf2 : c.ErrorWhenNot2xxFlag = false := by
      cases hx : c.ErrorWhenNot2xxFlag
      · rfl
      · exact absurd hx hf
    rw [hf2] at h
    simp only [Bool.not_false, if_true] at h
    cases h

/-- Outcome-conditioned count invariant of the counted fetch loop: on a
run delivering a response the dispatch count exceeds the refresh count by
one (each refresh was replayed); on a run ending in `ErrorMaxCallCount`
the two counts are equal (the final refresh, if any, had no replay); and
when a truthy access token is stored and every refresh call succeeds, any
other failing run also has one more dispatch than refresh (the error came
from a dispatched response's checks). -/
theorem fetchCounted_outcome_counts (c : Client) (env : Env) (Url Method : String)
    (Data : Option Jx) :
    ∀ n (Headers : HMap) (Config : FetchConfig) (Count : Nat) (st : St),
      c.MAX_CALL_COUNT - Count = n →
      ∃ tail,
        (fetchCounted c env Url Method Data Headers Config Count st).2.events =
            st.events ++ tail ∧
        (∀ r, (fetchCounted c env Url Method Data Headers Config Count st).1 =
            Except.ok r →
          countDispatch tail = countRefresh tail + 1) ∧
        (∀ tag, (fetchCounted c env Url Method Data Headers Config Count st).1 =
            Except.error (.errorMaxCallCount tag) →
          countDispatch tail = countRefresh tail) ∧
        (jsTruthyStr st.accessToken = true →
         (∀ k, ∃ T, env.tokens k = Except.ok T) →
         ∀ e, (fetchCounted c env Url Method Data Headers Config Count st).1 =
            Except.error e →
          (∀ tag, e ≠ JsErr.errorMaxCallCount tag) →
          countDispatch tail = countRefresh tail + 1) := by
  intro n
  induction n with
  | zero =>
    intro Headers Config Count st hn
    rw [fetchCounted.eq_def, dif_pos (by omega : Count ≥ c.MAX_CALL_COUNT)]
    refine ⟨[], by simp, ?_, ?_, ?_⟩
    · intro r h
      exact Except.noConfusion h
    · intro tag h
      rfl
    · intro htr htok e h hne
      have h2 : Except.error (JsErr.errorMaxCallCount "[fetchCounted]") =
          (Except.error e : Except JsErr Response) := h
      cases h2
      exact absurd rfl (hne "[fetchCounted]")
  | succ m ih =>
    intro Headers Config Count st hn
    rw [fetchCounted.eq_def, dif_neg (by omega : ¬ Count ≥ c.MAX_CALL_COUNT)]
    rcases fetchViaJwt_cases c env Url Method Data Headers Config st with hfv |
      ⟨H1, C1, req, hfv⟩
    · rw [hfv]
      dsimp only [Except.bind]
      refine ⟨[], by simp, ?_, ?_, ?_⟩
      · intro r h
        exact Except.noConfusion h
      · intro tag h
        rfl
      · intro htr htok e h hne
        obtain ⟨H2, C2x, req2, hfv2⟩ := fetchViaJwt_dispatch c env Url Method Data
          Headers Config st htr
        rw [hfv] at hfv2
        simp at hfv2
    · rw [hfv]
      dsimp only [Except.bind]
      rcases ho : onResponseCheck401 (env.responses (countDispatch st.events)) with e1 | resp2
      · have he1 := onResponseCheck401_error _ _ ho
        subst he1
        rw [fetchTokens]
        dsimp only [Except.bind]
        rcases htk : env.tokens (countRefresh (st.events ++ [Ev.dispatch req])) with e2 | T
        · refine ⟨[Ev.dispatch req, Ev.refreshCall], by simp, ?_, ?_, ?_⟩
          · intro r h
            exact Except.noConfusion h
          · intro tag h
            rfl
          · intro htr htok e h hne
            obtain ⟨T0, hT0⟩ := htok (countRefresh (st.events ++ [Ev.dispatch req]))
            rw [htk] at hT0
            exact Except.noConfusion hT0
        · obtain ⟨tail2, i1, i2, i3, i4⟩ := ih H1 C1 (Count + 1)
            (setRefreshTokenDefault
              (setAccessTokenDefault
                { accessToken := st.accessToken, refreshToken := st.refreshToken,
                  events := (st.events ++ [Ev.dispatch req]) ++ [Ev.refreshCall] }
                (T c.JWT_ACCESS_TOKEN_NAME))
              (T c.JWT_REFRESH_TOKEN_NAME)) (by omega)
          have hc1 : countRefresh [Ev.dispatch req, Ev.refreshCall] = 1 := rfl
          have hc2 : countDispatch [Ev.dispatch req, Ev.refreshCall] = 1 := rfl
          refine ⟨[Ev.dispatch req, Ev.refreshCall] ++ tail2, ?_, ?_, ?_, ?_⟩
          · rw [i1, setRefreshTokenDefault_events, setAccessTokenDefault_events]
            simp
          · intro r h
            have h2 := i2 r h
            rw [countDispatch_append, countRefresh_append]
            omega
          · intro tag h
            have h2 := i3 tag h
            rw [countDispatch_append, countRefresh_append]
            omega
          · intro htr htok e h hne
            have htr3 : jsTruthyStr
                (setRefreshTokenDefault
                  (setAccessTokenDefault
                    { accessToken := st.accessToken, refreshToken := st.refreshToken,
                      events := (st.events ++ [Ev.dispatch req]) ++ [Ev.refreshCall] }
                    (T c.JWT_ACCESS_TOKEN_NAME))
                  (T c.JWT_REFRESH_TOKEN_NAME)).accessToken = true := by
              rw [setRefreshTokenDefault_accessToken]
              exact setAccessTokenDefault_truthy _ _ htr
            have h2 := i4 htr3 htok e h hne
            rw [countDispatch_append, countRefresh_append]
            omega
      · dsimp only [Except.bind]
        rcases hsc : strictStatusCheck c resp2 with e3 | resp3
        · have hne401 := strictStatusCheck_err_ne401 c resp2 e3 hsc
          have hnemax := strictStatusCheck_err_not_max c resp2 e3 hsc
          cases e3 with
          | error401 tag => exact absurd hne401 (by simp [isError401])
          | errorMaxCallCount tag => exact absurd rfl (hnemax tag)
          | error404 tag =>
            refine ⟨[Ev.dispatch req], by simp, ?_, ?_, ?_⟩
            · intro r h
              exact Except.noConfusion h
            · intro tag2 h
              simp at h
            · intro _ _ e h hne
              rfl
          | errorNoAccessToken tag =>
            refine ⟨[Ev.dispatch req], by simp, ?_, ?_, ?_⟩
            · intro r h
              exact Except.noConfusion h
            · intro tag2 h
              simp at h
            · intro _ _ e h hne
              rfl
          | errorHTTPStatus msg sx =>
            refine ⟨[Ev.dispatch req], by simp, ?_, ?_, ?_⟩
            · intro r h
              exact Except.noConfusion h
            · intro tag2 h
              simp at h
            · intro _ _ e h hne
              rfl
          | typeError =>
            refine ⟨[Ev.dispatch req], by simp, ?_, ?_, ?_⟩
            · intro r h
              exact Except.noConfusion h
            · intro tag2 h
              simp at h
            · intro _ _ e h hne
              rfl
          | jsonParse msg =>
            refine ⟨[Ev.dispatch req], by simp, ?_, ?_, ?_⟩
            · intro r h
              exact Except.noConfusion h
            · intro tag2 h
              simp at h
            · intro _ _ e h hne
              rfl
        · refine ⟨[Ev.dispatch req], by simp, ?_, ?_, ?_⟩
          · intro r h
            rfl
          · intro tag h
            exact Except.noConfusion h
          · intro _ _ e h hne
            exact Except.noConfusion h

/-- One-step behaviour of the counted fetch loop when the first response
is a 401 and the refresh call rejects: the rejection propagates after one
dispatch and one recorded refresh call, with no replay. -/
theorem fetchCounted_401_then_reject (c : Client) (env : Env) (Url Method : String)
    (Data : Option Jx) (Headers : HMap) (Config : FetchConfig) (st : St) (e0 : JsErr)
    (hacc : jsTruthyStr st.accessToken = true)
    (hmax : 0 < c.MAX_CALL_COUNT)
    (h401 : (env.responses (countDispatch st.events)).status = 401)
    (htk : env.tokens (countRefresh st.events) = Except.error e0) :
    ∃ req, fetchCounted c env Url Method Data Headers Config 0 st =
      (.error e0,
       { st with events := (st.events ++ [Ev.dispatch req]) ++ [Ev.refreshCall] }) := by
  obtain ⟨H1, C1, req, hfv⟩ := fetchViaJwt_dispatch c env Url Method Data Headers Config st hacc
  refine ⟨req, ?_⟩
  rw [fetchCounted.eq_def, dif_neg (by omega : ¬ 0 ≥ c.MAX_CALL_COUNT), hfv]
  dsimp only [Except.bind]
  rw [onResponseCheck401_of_401 _ h401]
  dsimp only [Except.bind]
  rw [fetchTokens]
  dsimp only
  have hidx2 : countRefresh (st.events ++ [Ev.dispatch req]) = countRefresh st.events := by
    rw [countRefresh_append, countRefresh_dispatch_one]
    omega
  rw [hidx2, htk]

/-- Relation between the outcome of `fetchJSON` and the outcome of its
counted loop: a resolution comes from a delivered response, and a
rejection is either the loop's own error or a body-parse failure after a
delivered response. -/
theorem fetchJSON_outcome (c : Client) (env : Env) (Url Method : String)
    (Data : Option Jx) (Headers : HMap) (Config : FetchConfig) (st : St) :
    (∀ r, (fetchJSON c env Url Method Data Headers Config st).1 = Except.ok r →
      ∃ Resp, (fetchCounted c env Url Method Data Headers Config 0
        (startBeforeHandlers c st)).1 = Except.ok Resp) ∧
    (∀ e, (fetchJSON c env Url Method Data Headers Config st).1 = Except.error e →
      (fetchCounted c env Url Method Data Headers Config 0
        (startBeforeHandlers c st)).1 = Except.error e ∨
      ((∃ Resp, (fetchCounted c env Url Method Data Headers Config 0
          (startBeforeHandlers c st)).1 = Except.ok Resp) ∧
       ∃ msg, e = JsErr.jsonParse msg)) := by
  rw [fetchJSON.eq_def]
  rcases hfc : fetchCounted c env Url Method Data Headers Config 0
    (startBeforeHandlers c st) with ⟨r0, st2⟩
  cases r0 with
  | error e0 =>
    dsimp only
    constructor
    · intro r h
      exact Except.noConfusion h
    · intro e h
      have h2 : Except.error e0 = (Except.error e : Except JsErr Jx) := h
      cases h2
      exact Or.inl rfl
  | ok Resp =>
    dsimp only
    rcases hj : Resp.json with msg | Result <;> dsimp only
    · constructor
      · intro r h
        exact Except.noConfusion h
      · intro e h
        have h2 : Except.error (JsErr.jsonParse msg) = (Except.error e : Except JsErr Jx) := h
        cases h2
        exact Or.inr ⟨⟨Resp, rfl⟩, msg, rfl⟩
    · constructor
      · intro r h
        exact ⟨Resp, rfl⟩
      · intro e h
        exact Except.noConfusion h

/-- C2 counterexample: with MaxCallCount 1 and an always-401 server, the
`post` verb performs one refresh call but zero replays (the initial
dispatch is the only dispatch), so the number of replays does not equal
the number of refresh calls on the path that ends in `ErrorMaxCallCount`. -/
theorem claim_C2_counterexample :
    countRefresh (post clientMax1 envAll401 "u" none hempty {} stInit).2.events = 1 ∧
    countDispatch (post clientMax1 envAll401 "u" none hempty {} stInit).2.events = 1 ∧
    ¬ (countDispatch (post clientMax1 envAll401 "u" none hempty {} stInit).2.events - 1 =
        countRefresh (post clientMax1 envAll401 "u" none hempty {} stInit).2.events) := by
  obtain ⟨f1, f2, f3⟩ := fetchCounted_always401 clientMax1 envAll401 "u" "POST" none
    (fun _ => rfl) (fun _ => ⟨tokensBoth, rfl⟩) 1 hempty {} 0
    (startBeforeHandlers clientMax1 stInit) rfl rfl
  have hpair : fetchCounted clientMax1 envAll401 "u" "POST" none hempty {} 0
      (startBeforeHandlers clientMax1 stInit) =
      (.error (.errorMaxCallCount "[fetchCounted]"),
       (fetchCounted clientMax1 envAll401 "u" "POST" none hempty {} 0
         (startBeforeHandlers clientMax1 stInit)).2) :=
    Prod.ext_iff.mpr ⟨f1, rfl⟩
  have hev1 : countRefresh (startBeforeHandlers clientMax1 stInit).events = 0 := rfl
  have hev2 : countDispatch (startBeforeHandlers clientMax1 stInit).events = 0 := rfl
  rw [post, fetchJSON.eq_def, hpair]
  dsimp only
  rw [f2, f3, hev1, hev2]
  refine ⟨rfl, rfl, by decide⟩

/-- C2 amended: the controller performs at most `MAX_CALL_COUNT` refresh
cycles per logical call, and every refresh call is preceded by its own
dispatch, so the dispatch count equals the refresh count or exceeds it by
exactly one.  The number of replays (dispatches after the first) equals
the number of refresh calls on every run that resolves successfully and,
when a truthy access token is stored and every refresh call succeeds, on
every run that fails with an error other than `ErrorMaxCallCount`; on the
path ending in `ErrorMaxCallCount` the dispatch count equals the refresh
count, i.e. the final refresh is not followed by a replay, and the same
happens when a refresh rejection ends the run (shown for a first-dispatch
401 whose refresh call rejects: one dispatch, one refresh, no replay).
Under an always-401 environment with successful refreshes, exactly
`MAX_CALL_COUNT` refreshes and `MAX_CALL_COUNT` dispatches occur. -/
theorem claim_C2_amended (c : Client) (env : Env) (Url Method : String)
    (Data : Option Jx) (Headers : HMap) (Config : FetchConfig) (st : St)
    (hev : st.events = []) :
    countRefresh (fetchJSON c env Url Method Data Headers Config st).2.events ≤
        c.MAX_CALL_COUNT ∧
    (countDispatch (fetchJSON c env Url Method Data Headers Config st).2.events =
        countRefresh (fetchJSON c env Url Method Data Headers Config st).2.events ∨
     countDispatch (fetchJSON c env Url Method Data Headers Config st).2.events =
        countRefresh (fetchJSON c env Url Method Data Headers Config st).2.events + 1) ∧
    (∀ r, (fetchJSON c env Url Method Data Headers Config st).1 = Except.ok r →
      countDispatch (fetchJSON c env Url Method Data Headers Config st).2.events =
        countRefresh (fetchJSON c env Url Method Data Headers Config st).2.events + 1) ∧
    (∀ tag, (fetchJSON c env Url Method Data Headers Config st).1 =
        Except.error (.errorMaxCallCount tag) →
      countDispatch (fetchJSON c env Url Method Data Headers Config st).2.events =
        countRefresh (fetchJSON c env Url Method Data Headers Config st).2.events) ∧
    (jsTruthyStr st.accessToken = true →
     (∀ k, ∃ T, env.tokens k = Except.ok T) →
     ∀ e, (fetchJSON c env Url Method Data Headers Config st).1 = Except.error e →
      (∀ tag, e ≠ JsErr.errorMaxCallCount tag) →
      countDispatch (fetchJSON c env Url Method Data Headers Config st).2.events =
        countRefresh (fetchJSON c env Url Method Data Headers Config st).2.events + 1) ∧
    (∀ e0, jsTruthyStr st.accessToken = true → 0 < c.MAX_CALL_COUNT →
     (env.responses 0).status = 401 →
     env.tokens 0 = Except.error e0 →
     (fetchJSON c env Url Method Data Headers Config st).1 = Except.error e0 ∧
     countRefresh (fetchJSON c env Url Method Data Headers Config st).2.events = 1 ∧
     countDispatch (fetchJSON c env Url Method Data Headers Config st).2.events = 1) ∧
    ((∀ k, (env.responses k).status = 401) →
     (∀ k, ∃ T, env.tokens k = Except.ok T) →
     jsTruthyStr st.accessToken = true →
     countRefresh (fetchJSON c env Url Method Data Headers Config st).2.events =
        c.MAX_CALL_COUNT ∧
     countDispatch (fetchJSON c env Url Method Data Headers Config st).2.events =
        c.MAX_CALL_COUNT) := by
  obtain ⟨atail, ht1, ht2, ht3⟩ := fetchJSON_trace c env Url Method Data Headers Config st
  have hra : countRefresh atail = 0 := countRefresh_of_all_after _ ht2
  have hda : countDispatch atail = 0 := countDispatch_of_all_after _ ht2
  have hb : (startBeforeHandlers c st).events = c.BeforeHandlers.map Ev.beforeHandler := by
    rw [startBeforeHandlers]
    dsimp only
    rw [hev, List.nil_append]
  have hRa : countRefresh (fetchJSON c env Url Method Data Headers Config st).2.events =
      countRefresh (fetchCounted c env Url Method Data Headers Config 0
        (startBeforeHandlers c st)).2.events := by
    rw [ht1, countRefresh_append, hra]
    omega
  have hDa : countDispatch (fetchJSON c env Url Method Data Headers Config st).2.events =
      countDispatch (fetchCounted c env Url Method Data Headers Config 0
        (startBeforeHandlers c st)).2.events := by
    rw [ht1, countDispatch_append, hda]
    omega
  obtain ⟨tail, hf1, hf2, hf3, hf4, hf5⟩ := fetchCounted_frame c env Url Method Data
    (c.MAX_CALL_COUNT - 0) Headers Config 0 (startBeforeHandlers c st) rfl
  have hR : countRefresh (fetchJSON c env Url Method Data Headers Config st).2.events =
      countRefresh tail := by
    rw [hRa, hf1, countRefresh_append, hb, countRefresh_beforeMap]
    omega
  have hD : countDispatch (fetchJSON c env Url Method Data Headers Config st).2.events =
      countDispatch tail := by
    rw [hDa, hf1, countDispatch_append, hb, countDispatch_beforeMap]
    omega
  obtain ⟨tail2, g1, g2, g3, g4⟩ := fetchCounted_outcome_counts c env Url Method Data
    (c.MAX_CALL_COUNT - 0) Headers Config 0 (startBeforeHandlers c st) rfl
  have hR2 : countRefresh (fetchJSON c env Url Method Data Headers Config st).2.events =
      countRefresh tail2 := by
    rw [hRa, g1, countRefresh_append, hb, countRefresh_beforeMap]
    omega
  have hD2 : countDispatch (fetchJSON c env Url Method Data Headers Config st).2.events =
      countDispatch tail2 := by
    rw [hDa, g1, countDispatch_append, hb, countDispatch_beforeMap]
    omega
  have hout := fetchJSON_outcome c env Url Method Data Headers Config st
  refine ⟨?_, ?_, ?_, ?_, ?_, ?_, fun h401 htok hacc => ?_⟩
  · rw [hR]
    omega
  · rw [hR, hD]
    exact hf4
  · intro r h
    obtain ⟨Resp, hok⟩ := hout.1 r h
    rw [hR2, hD2]
    exact g2 Resp hok
  · intro tag h
    rcases hout.2 _ h with hcase | ⟨⟨Resp, hok⟩, msg, hmsg⟩
    · rw [hR2, hD2]
      exact g3 tag hcase
    · exact absurd hmsg (by simp)
  · intro htr htok e h hne
    rcases hout.2 e h with hcase | ⟨⟨Resp, hok⟩, _⟩
    · rw [hR2, hD2]
      exact g4 htr htok e hcase hne
    · rw [hR2, hD2]
      exact g2 Resp hok
  · intro e0 htr hmax h401x htk0
    have hidx : countDispatch (startBeforeHandlers c st).events = 0 := by
      rw [hb, countDispatch_beforeMap]
    have hidxr : countRefresh (startBeforeHandlers c st).events = 0 := by
      rw [hb, countRefresh_beforeMap]
    obtain ⟨req, hfc⟩ := fetchCounted_401_then_reject c env Url Method Data Headers Config
      (startBeforeHandlers c st) e0 htr hmax (by rw [hidx]; exact h401x)
      (by rw [hidxr]; exact htk0)
    refine ⟨?_, ?_, ?_⟩
    · rw [fetchJSON.eq_def, hfc]
    · rw [ht1, countRefresh_append, hra, hfc]
      dsimp only
      rw [countRefresh_append, countRefresh_append, hb, countRefresh_beforeMap,
        countRefresh_dispatch_one, countRefresh_refresh_one]
    · rw [ht1, countDispatch_append, hda, hfc]
      dsimp only
      rw [countDispatch_append, countDispatch_append, hb, countDispatch_beforeMap,
        countDispatch_dispatch_one, countDispatch_refresh_one]
  · obtain ⟨f1, f2, f3⟩ := fetchCounted_always401 c env Url Method Data h401 htok
      c.MAX_CALL_COUNT Headers Config 0 (startBeforeHandlers c st) (by omega) hacc
    constructor
    · rw [hRa, f2, hb, countRefresh_beforeMap]
      omega
    · rw [hDa, f3, hb, countDispatch_beforeMap]
      omega

/-- Witness for the amended C2 at a concrete client, environment and state. -/
theorem claim_C2_amended_witness :
    countRefresh (fetchJSON clientDefault envAll401 "u" "POST" none hempty {} stInit).2.events ≤
        clientDefault.MAX_CALL_COUNT ∧
    (countDispatch (fetchJSON clientDefault envAll401 "u" "POST" none hempty {} stInit).2.events =
        countRefresh (fetchJSON clientDefault envAll401 "u" "POST" none hempty {} stInit).2.events ∨
     countDispatch (fetchJSON clientDefault envAll401 "u" "POST" none hempty {} stInit).2.events =
        countRefresh (fetchJSON clientDefault envAll401 "u" "POST" none hempty {} stInit).2.events + 1) ∧
    (∀ r, (fetchJSON clientDefault envAll401 "u" "POST" none hempty {} stInit).1 = Except.ok r →
      countDispatch (fetchJSON clientDefault envAll401 "u" "POST" none hempty {} stInit).2.events =
        countRefresh (fetchJSON clientDefault envAll401 "u" "POST" none hempty {} stInit).2.events + 1) ∧
    (∀ tag, (fetchJSON clientDefault envAll401 "u" "POST" none hempty {} stInit).1 =
        Except.error (.errorMaxCallCount tag) →
      countDispatch (fetchJSON clientDefault envAll401 "u" "POST" none hempty {} stInit).2.events =
        countRefresh (fetchJSON clientDefault envAll401 "u" "POST" none hempty {} stInit).2.events) ∧
    (jsTruthyStr stInit.accessToken = true →
     (∀ k, ∃ T, envAll401.tokens k = Except.ok T) →
     ∀ e, (fetchJSON clientDefault envAll401 "u" "POST" none hempty {} stInit).1 = Except.error e →
      (∀ tag, e ≠ JsErr.errorMaxCallCount tag) →
      countDispatch (fetchJSON clientDefault envAll401 "u" "POST" none hempty {} stInit).2.events =
        countRefresh (fetchJSON clientDefault envAll401 "u" "POST" none hempty {} stInit).2.events + 1) ∧
    (∀ e0, jsTruthyStr stInit.accessToken = true → 0 < clientDefault.MAX_CALL_COUNT →
     (envAll401.responses 0).status = 401 →
     envAll401.tokens 0 = Except.error e0 →
     (fetchJSON clientDefault envAll401 "u" "POST" none hempty {} stInit).1 = Except.error e0 ∧
     countRefresh (fetchJSON clientDefault envAll401 "u" "POST" none hempty {} stInit).2.events = 1 ∧
     countDispatch (fetchJSON clientDefault envAll401 "u" "POST" none hempty {} stInit).2.events = 1) ∧
    ((∀ k, (envAll401.responses k).status = 401) →
     (∀ k, ∃ T, envAll401.tokens k = Except.ok T) →
     jsTruthyStr stInit.accessToken = true →
     countRefresh (fetchJSON clientDefault envAll401 "u" "POST" none hempty {} stInit).2.events =
        clientDefault.MAX_CALL_COUNT ∧
     countDispatch (fetchJSON clientDefault envAll401 "u" "POST" none hempty {} stInit).2.events =
        clientDefault.MAX_CALL_COUNT) :=
  claim_C2_amended clientDefault envAll401 "u" "POST" none hempty {} stInit rfl

/-- C5: the guarded default setters never overwrite a stored token with an
empty or absent value, and after any run whose refresh results carry no
truthy refresh token, the stored refresh token read back through
`getRefreshTokenDefault` is exactly its value from before the run. -/
theorem claim_C5_refresh_preserved :
    (∀ (st : St) (v : Option String), jsTruthyStr v = false →
      setAccessTokenDefault st v = st ∧ setRefreshTokenDefault st v = st) ∧
    (∀ (c : Client) (env : Env) (Url Method : String) (Data : Option Jx)
        (Headers : HMap) (Config : FetchConfig) (st : St),
      (∀ k T, env.tokens k = Except.ok T →
        jsTruthyStr (T c.JWT_REFRESH_TOKEN_NAME) = false) →
      getRefreshTokenDefault (fetchJSON c env Url Method Data Headers Config st).2 =
        getRefreshTokenDefault st) := by
  constructor
  · intro st v hv
    exact ⟨setAccessTokenDefault_noop st v hv, setRefreshTokenDefault_noop st v hv⟩
  · intro c env Url Method Data Headers Config st hnotok
    obtain ⟨atail, ht1, ht2, ht3⟩ := fetchJSON_trace c env Url Method Data Headers Config st
    obtain ⟨tail, hf1, hf2, hf3, hf4, hf5⟩ := fetchCounted_frame c env Url Method Data
      (c.MAX_CALL_COUNT - 0) Headers Config 0 (startBeforeHandlers c st) rfl
    rw [getRefreshTokenDefault, getRefreshTokenDefault, ht3, hf5 hnotok]
    rfl

/-- Witness for C5: setters are no-ops on an absent value, and a refresh
delivering only a new access token leaves the stored refresh token R1. -/
theorem claim_C5_witness :
    (setAccessTokenDefault stInit none = stInit ∧
     setRefreshTokenDefault stInit none = stInit) ∧
    getRefreshTokenDefault
        (fetchJSON clientDefault env401Then200 "u" "POST" none hempty {} stInit).2 =
      getRefreshTokenDefault stInit :=
  ⟨claim_C5_refresh_preserved.1 stInit none rfl,
   claim_C5_refresh_preserved.2 clientDefault env401Then200 "u" "POST" none hempty {} stInit
     (by intro k T h; cases h; rfl)⟩

/-- C7: a logical call runs every registered before-handler exactly once,
with no arguments, in registration order and before the first dispatch:
the run trace is exactly the registration list followed by events none of
which is a before-handler invocation (so no re-run happens before the
refresh or replay steps of the same logical call).  Shown for the
`fetchJSON` family and for `getJSON`. -/
theorem claim_C7_before_once (c : Client) (env : Env) (Url Method : String)
    (Data : Option Jx) (Headers : HMap) (Config : FetchConfig) (st : St)
    (hev : st.events = []) :
    (∃ tail, (fetchJSON c env Url Method Data Headers Config st).2.events =
        c.BeforeHandlers.map Ev.beforeHandler ++ tail ∧
      ∀ e ∈ tail, isBeforeEv e = false) ∧
    (∃ tail, (getJSON c env Url Data Headers Config st).2.events =
        c.BeforeHandlers.map Ev.beforeHandler ++ tail ∧
      ∀ e ∈ tail, isBeforeEv e = false) := by
  have hb : (startBeforeHandlers c st).events = c.BeforeHandlers.map Ev.beforeHandler := by
    rw [startBeforeHandlers]
    dsimp only
    rw [hev, List.nil_append]
  constructor
  · obtain ⟨atail, ht1, ht2, ht3⟩ := fetchJSON_trace c env Url Method Data Headers Config st
    obtain ⟨tail, hf1, hf2, hf3, hf4, hf5⟩ := fetchCounted_frame c env Url Method Data
      (c.MAX_CALL_COUNT - 0) Headers Config 0 (startBeforeHandlers c st) rfl
    refine ⟨tail ++ atail, ?_, ?_⟩
    · rw [ht1, hf1, hb, List.append_assoc]
    · intro e he
      rcases List.mem_append.mp he with h2 | h2
      · exact isBeforeEv_of_net e (hf2 e h2)
      · exact isBeforeEv_of_after e (ht2 e h2)
  · obtain ⟨atail, ht1, ht2, ht3⟩ := getJSON_trace c env Url Data Headers Config st
    obtain ⟨tail, hf1, hf2⟩ := getCounted_frame c env Url "GET" Data
      (c.MAX_CALL_COUNT - 0) Headers Config 0 (startBeforeHandlers c st) rfl
    refine ⟨tail ++ atail, ?_, ?_⟩
    · rw [ht1, hf1, hb, List.append_assoc]
    · intro e he
      rcases List.mem_append.mp he with h2 | h2
      · exact isBeforeEv_of_net e (hf2 e h2)
      · exact isBeforeEv_of_after e (ht2 e h2)

/-- Witness for C7 at a concrete environment and an empty initial trace. -/
theorem claim_C7_witness :
    (∃ tail, (fetchJSON clientDefault env200 "u" "POST" none hempty {} stInit).2.events =
        clientDefault.BeforeHandlers.map Ev.beforeHandler ++ tail ∧
      ∀ e ∈ tail, isBeforeEv e = false) ∧
    (∃ tail, (getJSON clientDefault env200 "u" none hempty {} stInit).2.events =
        clientDefault.BeforeHandlers.map Ev.beforeHandler ++ tail ∧
      ∀ e ∈ tail, isBeforeEv e = false) :=
  claim_C7_before_once clientDefault env200 "u" "POST" none hempty {} stInit rfl

theorem countAfter_append (a b : List Ev) :
    countAfter (a ++ b) = countAfter a + countAfter b :=
  List.countP_append _ _ _

theorem countAfter_beforeMap (l : List Nat) :
    countAfter (l.map Ev.beforeHandler) = 0 := by
  rw [countAfter, List.countP_eq_zero]
  intro a ha
  obtain ⟨i, _, rfl⟩ := List.mem_map.mp ha
  simp [isAfterEv]

theorem isAfterEv_of_net (e : Ev)
    (h : isDispatchEv e = true ∨ isRefreshEv e = true) : isAfterEv e = false := by
  cases e <;> simp_all [isAfterEv, isDispatchEv, isRefreshEv]

theorem countAfter_of_net (l : List Ev)
    (h : ∀ e ∈ l, isDispatchEv e = true ∨ isRefreshEv e = true) :
    countAfter l = 0 := by
  rw [countAfter, List.countP_eq_zero]
  intro e he
  simp [isAfterEv_of_net e (h e he)]

/-- One-step behaviour of the counted fetch loop when a truthy access
token is stored and the first response is not a 401: no refresh happens,
exactly one dispatch is recorded, and the call's outcome is exactly the
verdict of the strict status-range check on that response. -/
theorem fetchCounted_first_not401 (c : Client) (env : Env) (Url Method : String)
    (Data : Option Jx) (Headers : HMap) (Config : FetchConfig) (st : St)
    (hacc : jsTruthyStr st.accessToken = true)
    (hmax : 0 < c.MAX_CALL_COUNT)
    (h401 : (env.responses (countDispatch st.events)).status ≠ 401) :
    ∃ req,
      fetchCounted c env Url Method Data Headers Config 0 st =
        (strictStatusCheck c (env.responses (countDispatch st.events)),
         { st with events := st.events ++ [Ev.dispatch req] }) := by
  obtain ⟨H1, C1, req, hfv⟩ := fetchViaJwt_dispatch c env Url Method Data Headers Config st hacc
  refine ⟨req, ?_⟩
  rw [fetchCounted.eq_def, dif_neg (by omega : ¬ 0 ≥ c.MAX_CALL_COUNT), hfv]
  dsimp only [Except.bind]
  rw [onResponseCheck401_of_ne _ h401]
  dsimp only [Except.bind]
  rcases hsc : strictStatusCheck c (env.responses (countDispatch st.events)) with e | resp2
  · have hne := strictStatusCheck_err_ne401 c _ e hsc
    cases e with
    | error401 tag => exact absurd hne (by simp [isError401])
    | error404 tag => rfl
    | errorMaxCallCount tag => rfl
    | errorNoAccessToken tag => rfl
    | errorHTTPStatus msg s => rfl
    | typeError => rfl
    | jsonParse msg => rfl
  · rfl

/-- One-step behaviour of the counted GET loop when a truthy access token
is stored and the first response is not a 401: the response is delivered
unexamined beyond the 401 check, after exactly one dispatch. -/
theorem getCounted_first_not401 (c : Client) (env : Env) (Url Method : String)
    (Data : Option Jx) (Headers : HMap) (Config : FetchConfig) (st : St)
    (hacc : jsTruthyStr st.accessToken = true)
    (hmax : 0 < c.MAX_CALL_COUNT)
    (h401 : (env.responses (countDispatch st.events)).status ≠ 401) :
    ∃ req,
      getCounted c env Url Method Data Headers Config 0 st =
        (.ok (env.responses (countDispatch st.events)),
         { st with events := st.events ++ [Ev.dispatch req] }) := by
  obtain ⟨H1, C1, req, hfv⟩ := fetchViaJwt_dispatch c env (generateGetUrl Url Data) "GET"
    none Headers Config st hacc
  refine ⟨req, ?_⟩
  rw [getCounted.eq_def, dif_neg (by omega : ¬ 0 ≥ c.MAX_CALL_COUNT), getViaJwt, hfv]
  dsimp only [Except.bind]
  rw [onResponseCheck401_of_ne _ h401]

/-- C3 counterexample: for the `get` verb a 500 response does not
propagate any error: the 401 check passes it through, no strict
status-range check exists on the GET path, and the call resolves with the
parsed body (the stronger part of the claim, that `fetchTokens` is never
invoked, does hold and is proved in the amended theorem). -/
theorem claim_C3_counterexample :
    (get clientDefault env500 "u" none hempty {} stInit).1 =
      Except.ok (Jx.jobj [("a", Jx.jnum 1)]) := by
  obtain ⟨req, hgc⟩ := getCounted_first_not401 clientDefault env500 "u" "GET" none hempty {}
    (startBeforeHandlers clientDefault stInit) rfl (by decide) (by decide)
  rw [get, getJSON.eq_def, hgc]
  rfl

/-- C3 amended: a 200 response never triggers a refresh call; a non-401
error status such as 500 never triggers a refresh call either, and on the
`fetchJSON`-backed verbs (post, put, delete; strict mode enabled) it makes
the call propagate the strict check's own error for that response, while
on the GET path the response passes through and the call resolves with its
parsed body. -/
theorem claim_C3_non_auth_passthrough (c : Client) (env : Env) (Url Method : String)
    (Data : Option Jx) (Headers : HMap) (Config : FetchConfig) (st : St)
    (hflag : c.ErrorWhenNot2xxFlag = true)
    (hacc : jsTruthyStr st.accessToken = true)
    (hev : st.events = [])
    (hmax : 0 < c.MAX_CALL_COUNT) :
    ((env.responses 0).status = 200 →
      countRefresh (fetchJSON c env Url Method Data Headers Config st).2.events = 0) ∧
    ((env.responses 0).status = 500 →
      ∃ e, strictStatusCheck c (env.responses 0) = Except.error e ∧
        (fetchJSON c env Url Method Data Headers Config st).1 = Except.error e ∧
        countRefresh (fetchJSON c env Url Method Data Headers Config st).2.events = 0) ∧
    ((env.responses 0).status = 500 →
      countRefresh (getJSON c env Url Data Headers Config st).2.events = 0 ∧
      ∀ Result, (env.responses 0).json = .ok Result →
        (getJSON c env Url Data Headers Config st).1 = .ok Result) := by
  have hb : (startBeforeHandlers c st).events = c.BeforeHandlers.map Ev.beforeHandler := by
    rw [startBeforeHandlers]
    dsimp only
    rw [hev, List.nil_append]
  have hidx : countDispatch (startBeforeHandlers c st).events = 0 := by
    rw [hb, countDispatch_beforeMap]
  obtain ⟨atail, ht1, ht2, ht3⟩ := fetchJSON_trace c env Url Method Data Headers Config st
  have hra : countRefresh atail = 0 := countRefresh_of_all_after _ ht2
  refine ⟨?_, ?_, ?_⟩
  · intro h200
    obtain ⟨req, hfc⟩ := fetchCounted_first_not401 c env Url Method Data Headers Config
      (startBeforeHandlers c st) hacc hmax (by rw [hidx, h200]; omega)
    rw [ht1, countRefresh_append, hra, hfc]
    dsimp only
    rw [countRefresh_append, hb, countRefresh_beforeMap, countRefresh_dispatch_one]
  · intro h500
    obtain ⟨req, hfc⟩ := fetchCounted_first_not401 c env Url Method Data Headers Config
      (startBeforeHandlers c st) hacc hmax (by rw [hidx, h500]; omega)
    rw [hidx] at hfc
    obtain ⟨e, hsc⟩ := strictStatusCheck_out_errors c (env.responses 0) hflag
      (by rw [h500]; omega)
    rw [hsc] at hfc
    refine ⟨e, hsc, ?_, ?_⟩
    · rw [fetchJSON.eq_def, hfc]
    · rw [ht1, countRefresh_append, hra, hfc]
      dsimp only
      rw [countRefresh_append, hb, countRefresh_beforeMap, countRefresh_dispatch_one]
  · intro h500
    obtain ⟨req, hgc⟩ := getCounted_first_not401 c env Url "GET" Data Headers Config
      (startBeforeHandlers c st) hacc hmax (by rw [hidx, h500]; omega)
    rw [hidx] at hgc
    constructor
    · obtain ⟨atail2, gt1, gt2, gt3⟩ := getJSON_trace c env Url Data Headers Config st
      have hra2 : countRefresh atail2 = 0 := countRefresh_of_all_after _ gt2
      rw [gt1, countRefresh_append, hra2, hgc]
      dsimp only
      rw [countRefresh_append, hb, countRefresh_beforeMap, countRefresh_dispatch_one]
    · intro Result hjson
      rw [getJSON.eq_def, hgc]
      dsimp only
      rw [hjson]

/-- Witness for C3 with a 500-answering environment. -/
theorem claim_C3_witness :
    ((env500.responses 0).status = 200 →
      countRefresh (fetchJSON clientDefault env500 "u" "POST" none hempty {} stInit).2.events = 0) ∧
    ((env500.responses 0).status = 500 →
      ∃ e, strictStatusCheck clientDefault (env500.responses 0) = Except.error e ∧
        (fetchJSON clientDefault env500 "u" "POST" none hempty {} stInit).1 = Except.error e ∧
        countRefresh (fetchJSON clientDefault env500 "u" "POST" none hempty {} stInit).2.events = 0) ∧
    ((env500.responses 0).status = 500 →
      countRefresh (getJSON clientDefault env500 "u" none hempty {} stInit).2.events = 0 ∧
      ∀ Result, (env500.responses 0).json = .ok Result →
        (getJSON clientDefault env500 "u" none hempty {} stInit).1 = .ok Result) :=
  claim_C3_non_auth_passthrough clientDefault env500 "u" "POST" none hempty {} stInit
    rfl rfl rfl (by decide)

/-- C4: with authorization enabled and no truthy access token stored, a
verb call fails immediately with `ErrorNoAccessToken` and performs no
network dispatch and no refresh call.  Shown for the `fetchJSON` family
and for `getJSON`. -/
theorem claim_C4_no_access_token (c : Client) (env : Env) (Url Method : String)
    (Data : Option Jx) (Headers : HMap) (Config : FetchConfig) (st : St)
    (hA : c.AuthorizationFlag = true)
    (hacc : jsTruthyStr st.accessToken = false)
    (hmax : 0 < c.MAX_CALL_COUNT)
    (hev : st.events = []) :
    ((fetchJSON c env Url Method Data Headers Config st).1 =
        .error (.errorNoAccessToken "[fetchViaJwt]") ∧
     countDispatch (fetchJSON c env Url Method Data Headers Config st).2.events = 0 ∧
     countRefresh (fetchJSON c env Url Method Data Headers Config st).2.events = 0) ∧
    ((getJSON c env Url Data Headers Config st).1 =
        .error (.errorNoAccessToken "[fetchViaJwt]") ∧
     countDispatch (getJSON c env Url Data Headers Config st).2.events = 0 ∧
     countRefresh (getJSON c env Url Data Headers Config st).2.events = 0) := by
  have hb : (startBeforeHandlers c st).events = c.BeforeHandlers.map Ev.beforeHandler := by
    rw [startBeforeHandlers]
    dsimp only
    rw [hev, List.nil_append]
  constructor
  · have hfv := fetchViaJwt_no_token c env Url Method Data Headers Config
      (startBeforeHandlers c st) hA hacc
    have hfc : fetchCounted c env Url Method Data Headers Config 0 (startBeforeHandlers c st) =
        (.error (.errorNoAccessToken "[fetchViaJwt]"), startBeforeHandlers c st) := by
      rw [fetchCounted.eq_def, dif_neg (by omega : ¬ 0 ≥ c.MAX_CALL_COUNT), hfv]
      rfl
    rw [fetchJSON.eq_def, hfc]
    dsimp only
    refine ⟨rfl, ?_, ?_⟩
    · rw [hb, countDispatch_beforeMap]
    · rw [hb, countRefresh_beforeMap]
  · have hfv := fetchViaJwt_no_token c env (generateGetUrl Url Data) "GET" none Headers Config
      (startBeforeHandlers c st) hA hacc
    have hfc : getCounted c env Url "GET" Data Headers Config 0 (startBeforeHandlers c st) =
        (.error (.errorNoAccessToken "[fetchViaJwt]"), startBeforeHandlers c st) := by
      rw [getCounted.eq_def, dif_neg (by omega : ¬ 0 ≥ c.MAX_CALL_COUNT), getViaJwt, hfv]
      rfl
    rw [getJSON.eq_def, hfc]
    dsimp only
    refine ⟨rfl, ?_, ?_⟩
    · rw [hb, countDispatch_beforeMap]
    · rw [hb, countRefresh_beforeMap]

/-- Witness for C4 with an empty token store. -/
theorem claim_C4_witness :
    ((fetchJSON clientDefault env200 "u" "POST" none hempty {} stNoAccess).1 =
        .error (.errorNoAccessToken "[fetchViaJwt]") ∧
     countDispatch (fetchJSON clientDefault env200 "u" "POST" none hempty {} stNoAccess).2.events = 0 ∧
     countRefresh (fetchJSON clientDefault env200 "u" "POST" none hempty {} stNoAccess).2.events = 0) ∧
    ((getJSON clientDefault env200 "u" none hempty {} stNoAccess).1 =
        .error (.errorNoAccessToken "[fetchViaJwt]") ∧
     countDispatch (getJSON clientDefault env200 "u" none hempty {} stNoAccess).2.events = 0 ∧
     countRefresh (getJSON clientDefault env200 "u" none hempty {} stNoAccess).2.events = 0) :=
  claim_C4_no_access_token clientDefault env200 "u" "POST" none hempty {} stNoAccess
    rfl rfl (by decide) rfl

/-- C6: the headers of every dispatched request are the merge, in strict
lowest-to-highest precedence, of `CommonHeaders`, the Content-Type
default, the caller headers, and (when authorization is enabled) the
computed Authorization bearer header, later entries overwriting earlier
ones; the code's merge (which first writes Authorization into the caller
headers object and then folds it in last) is pointwise equal to the
spec-side merge `specHeaderMerge`. -/
theorem claim_C6_header_precedence (c : Client) (env : Env) (Url Method : String)
    (Data : Option Jx) (Headers : HMap) (Config : FetchConfig) (st : St) (T : String)
    (hacc : st.accessToken = some T) (hT : T ≠ "") :
    (c.AuthorizationFlag = true →
      ∃ H1 C1 req,
        fetchViaJwt c env Url Method Data Headers Config st =
          (.ok (env.responses (countDispatch st.events)), H1, C1,
           { st with events := st.events ++ [Ev.dispatch req] }) ∧
        ∀ k, req.headers k = specHeaderMerge c Headers T k) ∧
    (c.AuthorizationFlag = false →
      ∃ H1 C1 req,
        fetchViaJwt c env Url Method Data Headers Config st =
          (.ok (env.responses (countDispatch st.events)), H1, C1,
           { st with events := st.events ++ [Ev.dispatch req] }) ∧
        ∀ k, req.headers k =
          hassign (hassign (hassign hempty c.CommonHeaders) contentTypeDefault) Headers k) := by
  have htr : jsTruthyStr (getAccessTokenDefault st) = true := by
    rw [getAccessTokenDefault, hacc]
    simp [jsTruthyStr, hT]
  constructor
  · intro hA
    rw [fetchViaJwt, hA, if_pos rfl, htr]
    simp only [Bool.not_true, Bool.false_eq_true, if_false]
    rw [fetch]
    refine ⟨_, _, _, rfl, ?_⟩
    intro k
    rw [getAccessTokenDefault, hacc]
    by_cases hk : k = "Authorization"
    · subst hk
      simp [specHeaderMerge, hassign, hset, hempty]
    · simp [specHeaderMerge, hassign, hset, hempty, hk]
  · intro hA
    rw [fetchViaJwt, hA]
    simp only [Bool.false_eq_true, if_false]
    rw [fetch]
    exact ⟨_, _, _, rfl, fun k => rfl⟩

/-- Witness for C6 with the default client and stored token T. -/
theorem claim_C6_witness :
    (clientDefault.AuthorizationFlag = true →
      ∃ H1 C1 req,
        fetchViaJwt clientDefault env200 "u" "POST" none hempty {} stInit =
          (.ok (env200.responses (countDispatch stInit.events)), H1, C1,
           { stInit with events := stInit.events ++ [Ev.dispatch req] }) ∧
        ∀ k, req.headers k = specHeaderMerge clientDefault hempty "T" k) ∧
    (clientDefault.AuthorizationFlag = false →
      ∃ H1 C1 req,
        fetchViaJwt clientDefault env200 "u" "POST" none hempty {} stInit =
          (.ok (env200.responses (countDispatch stInit.events)), H1, C1,
           { stInit with events := stInit.events ++ [Ev.dispatch req] }) ∧
        ∀ k, req.headers k =
          hassign (hassign (hassign hempty clientDefault.CommonHeaders) contentTypeDefault)
            hempty k) :=
  claim_C6_header_precedence clientDefault env200 "u" "POST" none hempty {} stInit "T"
    rfl (by decide)

/-- C8 counterexample: in strict mode, a 500 response whose parsed JSON
body is an object without a data field makes the call reject with the
TypeError raised by the message-extraction expression, not with
`ErrorHTTPStatus`. -/
theorem claim_C8_counterexample :
    (post clientDefault env500 "u" none hempty {} stInit).1 = .error .typeError ∧
    rejectsWithHTTPStatus (post clientDefault env500 "u" none hempty {} stInit).1 = false := by
  obtain ⟨req, hfc⟩ := fetchCounted_first_not401 clientDefault env500 "u" "POST" none hempty {}
    (startBeforeHandlers clientDefault stInit) rfl (by decide) (by decide)
  have hsc : strictStatusCheck clientDefault
      (env500.responses (countDispatch (startBeforeHandlers clientDefault stInit).events)) =
      .error .typeError := rfl
  rw [hsc] at hfc
  rw [post, fetchJSON.eq_def, hfc]
  exact ⟨rfl, rfl⟩

/-- C8 amended: in strict mode a response with status outside 200..299 and
distinct from 401 makes the call reject with `ErrorHTTPStatus` carrying
that status and a message extracted from the parsed body, provided the
body parses and the `Result.data.errors` extraction itself does not throw;
when the extraction throws (body without a data object) or the body does
not parse, the call rejects with that failure instead. -/
theorem claim_C8_amended (c : Client) (env : Env) (Url Method : String)
    (Data : Option Jx) (Headers : HMap) (Config : FetchConfig) (st : St)
    (Result : Jx) (errs : Option Jx)
    (hflag : c.ErrorWhenNot2xxFlag = true)
    (hacc : jsTruthyStr st.accessToken = true)
    (hev : st.events = [])
    (hmax : 0 < c.MAX_CALL_COUNT)
    (hout : (env.responses 0).status < 200 ∨ 300 ≤ (env.responses 0).status)
    (h401 : (env.responses 0).status ≠ 401)
    (hjson : (env.responses 0).json = .ok Result)
    (hdata : dataDotErrors Result = .ok errs) :
    (fetchJSON c env Url Method Data Headers Config st).1 =
      .error (.errorHTTPStatus
        ("[fetchCounted]" ++
          (if jsTruthyOpt errs then " " ++ (errs.getD Jx.jnull).toJsString
           else " " ++ Result.toJsString))
        (env.responses 0).status) := by
  have hb : (startBeforeHandlers c st).events = c.BeforeHandlers.map Ev.beforeHandler := by
    rw [startBeforeHandlers]
    dsimp only
    rw [hev, List.nil_append]
  have hidx : countDispatch (startBeforeHandlers c st).events = 0 := by
    rw [hb, countDispatch_beforeMap]
  have hcond : (getFetchResponseStatus (env.responses 0) < 200 ||
      getFetchResponseStatus (env.responses 0) ≥ 300) = true := by
    simp [getFetchResponseStatus]
    omega
  have hsc : strictStatusCheck c (env.responses 0) =
      .error (.errorHTTPStatus
        ("[fetchCounted]" ++
          (if jsTruthyOpt errs then " " ++ (errs.getD Jx.jnull).toJsString
           else " " ++ Result.toJsString))
        (env.responses 0).status) := by
    rw [strictStatusCheck, hflag, hcond]
    simp only [Bool.not_true, Bool.false_eq_true, if_false, if_true]
    rw [hjson]
    dsimp only
    rw [hdata]
    dsimp only [getFetchResponseStatus]
  obtain ⟨req, hfc⟩ := fetchCounted_first_not401 c env Url Method Data Headers Config
    (startBeforeHandlers c st) hacc hmax (by rw [hidx]; exact h401)
  rw [hidx, hsc] at hfc
  rw [fetchJSON.eq_def, hfc]

/-- Witness for the amended C8: a 500 response whose body carries a data
object with an errors string yields `ErrorHTTPStatus` with that message. -/
theorem claim_C8_amended_witness :
    (fetchJSON clientDefault
        { responses := fun _ =>
            { status := 500
              json := .ok (.jobj [("data", .jobj [("errors", .jstr "boom")])]) }
          tokens := fun _ => .ok tokensBoth }
        "u" "POST" none hempty {} stInit).1 =
      .error (.errorHTTPStatus
        ("[fetchCounted]" ++
          (if jsTruthyOpt (some (.jstr "boom")) then
            " " ++ ((some (Jx.jstr "boom")).getD Jx.jnull).toJsString
           else " " ++ (Jx.jobj [("data", .jobj [("errors", .jstr "boom")])]).toJsString))
        500) :=
  claim_C8_amended clientDefault
    { responses := fun _ =>
        { status := 500
          json := .ok (.jobj [("data", .jobj [("errors", .jstr "boom")])]) }
      tokens := fun _ => .ok tokensBoth }
    "u" "POST" none hempty {} stInit (.jobj [("data", .jobj [("errors", .jstr "boom")])])
    (some (.jstr "boom")) rfl rfl rfl (by decide) (by decide) (by decide) rfl rfl

/-- C9 counterexample: the dispatcher mutates its caller-supplied objects:
after a `fetchViaJwt` call with authorization enabled, the caller's
headers object has gained an Authorization entry (it was empty before)
and the caller's config object has gained a method entry. -/
theorem claim_C9_counterexample :
    (fetchViaJwt clientDefault env200 "u" "POST" none hempty {} stInit).2.1 "Authorization" =
        some "Bearer T" ∧
    hempty "Authorization" = none ∧
    (fetchViaJwt clientDefault env200 "u" "POST" none hempty {} stInit).2.2.1.method =
        some "POST" ∧
    ({} : FetchConfig).method = none := by
  refine ⟨?_, rfl, ?_, rfl⟩ <;> rfl

/-- C9 amended: beyond recording the network dispatch, `fetchViaJwt`'s
only side effects are writing the Authorization bearer header into the
caller-supplied headers object and the method into the caller-supplied
config object; the token stores are untouched and the caller headers are
unchanged at every other key. -/
theorem claim_C9_amended (c : Client) (env : Env) (Url Method : String)
    (Data : Option Jx) (Headers : HMap) (Config : FetchConfig) (st : St) (T : String)
    (hA : c.AuthorizationFlag = true)
    (hacc : st.accessToken = some T) (hT : T ≠ "") :
    ∃ req,
      fetchViaJwt c env Url Method Data Headers Config st =
        (.ok (env.responses (countDispatch st.events)),
         hset Headers "Authorization" ("Bearer " ++ T),
         { Config with method := some Method },
         { st with events := st.events ++ [Ev.dispatch req] }) ∧
      ∀ k, k ≠ "Authorization" →
        hset Headers "Authorization" ("Bearer " ++ T) k = Headers k := by
  have htr : jsTruthyStr (getAccessTokenDefault st) = true := by
    rw [getAccessTokenDefault, hacc]
    simp [jsTruthyStr, hT]
  rw [fetchViaJwt, hA, if_pos rfl, htr]
  simp only [Bool.not_true, Bool.false_eq_true, if_false]
  rw [fetch, getAccessTokenDefault, hacc]
  refine ⟨_, rfl, ?_⟩
  intro k hk
  simp [hset, hk]

/-- Witness for the amended C9. -/
theorem claim_C9_amended_witness :
    ∃ req,
      fetchViaJwt clientDefault env200 "u" "POST" none hempty {} stInit =
        (.ok (env200.responses (countDispatch stInit.events)),
         hset hempty "Authorization" ("Bearer " ++ "T"),
         { ({} : FetchConfig) with method := some "POST" },
         { stInit with events := stInit.events ++ [Ev.dispatch req] }) ∧
      ∀ k, k ≠ "Authorization" →
        hset hempty "Authorization" ("Bearer " ++ "T") k = hempty k :=
  claim_C9_amended clientDefault env200 "u" "POST" none hempty {} stInit "T"
    rfl rfl (by decide)

/-- C10: when the counted loop delivers a response that passed the status
checks, the logical call resolves with the JSON-parsed body and runs the
after-handlers on it; when the body fails to parse, the call rejects with
that parse failure and no after-handler is invoked. -/
theorem claim_C10_json_body (c : Client) (env : Env) (Url Method : String)
    (Data : Option Jx) (Headers : HMap) (Config : FetchConfig) (st : St)
    (Resp : Response) (st1 : St)
    (hrun : fetchCounted c env Url Method Data Headers Config 0
      (startBeforeHandlers c st) = (Except.ok Resp, st1)) :
    (∀ Result, Resp.json = .ok Result →
      fetchJSON c env Url Method Data Headers Config st =
        (.ok Result, startAfterHandlers c Result st1)) ∧
    (∀ msg, Resp.json = .error msg →
      fetchJSON c env Url Method Data Headers Config st =
        (.error (.jsonParse msg), st1) ∧
      countAfter st1.events = countAfter st.events) := by
  have hframe := fetchCounted_frame c env Url Method Data (c.MAX_CALL_COUNT - 0)
    Headers Config 0 (startBeforeHandlers c st) rfl
  obtain ⟨tail, hf1, hf2, _, _, _⟩ := hframe
  rw [hrun] at hf1
  constructor
  · intro Result hj
    rw [fetchJSON.eq_def, hrun]
    dsimp only
    rw [hj]
  · intro msg hj
    refine ⟨?_, ?_⟩
    · rw [fetchJSON.eq_def, hrun]
      dsimp only
      rw [hj]
    · rw [hf1, startBeforeHandlers]
      dsimp only
      rw [List.append_assoc, countAfter_append, countAfter_append, countAfter_beforeMap,
        countAfter_of_net tail hf2]
      omega

/-- Witness for C10: a 200 response with a JSON body resolves to the
parsed body. -/
theorem claim_C10_witness :
    (fetchJSON clientDefault env200 "u" "POST" none hempty {} stInit).1 =
      Except.ok (Jx.jobj [("ok", Jx.jbool true)]) := by
  obtain ⟨req, hfc⟩ := fetchCounted_first_not401 clientDefault env200 "u" "POST" none hempty {}
    (startBeforeHandlers clientDefault stInit) rfl (by decide) (by decide)
  have hsc : strictStatusCheck clientDefault
      (env200.responses (countDispatch (startBeforeHandlers clientDefault stInit).events)) =
      .ok (env200.responses (countDispatch (startBeforeHandlers clientDefault stInit).events)) :=
    rfl
  rw [hsc] at hfc
  have h10 := (claim_C10_json_body clientDefault env200 "u" "POST" none hempty {} stInit
    _ _ hfc).1 (Jx.jobj [("ok", Jx.jbool true)]) rfl
  rw [h10]

end TRMJsFetchViaJwt
